import Mathlib

/-!
# White House schedule tracker: embedding of `src/index.js`

The poller of `src/index.js` is embedded as pure Lean functions.

* A JavaScript string is the list of its UTF-16 code units (`JSString`), so
  `.length` is `List.length`, `+` is `++` and `substring` cuts code units.
* The process-wide `let` variables of the module are the fields of `TrackerState`;
  `fetchCalendarData` is a step function on that state which also returns the list
  of texts handed to `sendTweet`.
* What the JavaScript runtime supplies (`Intl` date formatting, `toUpperCase`,
  `localeCompare`) is collected in `Runtime` and taken as a parameter; the wall
  clock enters as the two date strings the code derives from it.
* Feed records carry their `date` as `YYYY-MM-DD`. The plain object `eventsByDate`
  is the insertion-ordered list of its properties, which is what `Object.keys`
  reports for such keys; the statements about the digest and about the poll cycle
  are made for feeds whose dates have that shape (`isISODate`).
-/

namespace WHSchedule

/-! ## JavaScript strings -/

/-- A JavaScript string: the sequence of its UTF-16 code units. -/
abbrev JSString := List Nat

/-- UTF-16 code units of one Unicode scalar value (a surrogate pair above the BMP). -/
def utf16Char (c : Char) : List Nat :=
  if c.toNat < 65536 then [c.toNat]
  else [55296 + (c.toNat - 65536) / 1024, 56320 + (c.toNat - 65536) % 1024]

/-- The JavaScript string denoted by a source literal. -/
def utf16 (s : String) : JSString :=
  s.toList.foldr (fun c acc => utf16Char c ++ acc) []

/-- Decimal rendering of a non-negative integer inside a template literal. -/
def numberToString (n : Nat) : JSString :=
  (Nat.repr n).toList.map Char.toNat

/-- `String.prototype.substring(start, end)`: both indices are clamped to
`[0, length]` and swapped when `start > end`. -/
def substring (s : JSString) (i j : Int) : JSString :=
  let a := (min (max i 0) (s.length : Int)).toNat
  let b := (min (max j 0) (s.length : Int)).toNat
  (s.drop (min a b)).take (max a b - min a b)

/-- `Array.prototype.join(sep)` on an array of strings. -/
def join (sep : JSString) : List JSString → JSString
  | [] => []
  | [x] => x
  | x :: y :: rest => x ++ sep ++ join sep (y :: rest)

/-- `String.prototype.includes(needle)`. -/
def includes (s needle : JSString) : Bool :=
  s.tails.any (fun t => needle.isPrefixOf t)

/-- `a < b` on JavaScript strings: lexicographic order of the code units. -/
def jsLt : JSString → JSString → Bool
  | _, [] => false
  | [], _ :: _ => true
  | x :: xs, y :: ys => if x < y then true else if y < x then false else jsLt xs ys

/-- `a >= b` on JavaScript strings. -/
def jsGe (a b : JSString) : Bool := !jsLt a b

/-! ## Events -/

/-- An optional string property of a feed record: absent, JSON `null`, or a string. -/
inductive Field where
  | undefined : Field
  | null : Field
  | str : JSString → Field
  deriving DecidableEq, Repr

/-- `f || fallback` for an optional string property: absent, `null` and the empty
string are falsy. -/
def Field.orElse (f : Field) (fallback : JSString) : JSString :=
  match f with
  | Field.str (c :: cs) => c :: cs
  | _ => fallback

/-- Truthiness of an optional string property. -/
def Field.truthy (f : Field) : Bool :=
  match f with
  | Field.str (_ :: _) => true
  | _ => false

/-- An optional string property interpolated in a template literal. -/
def Field.render (f : Field) : JSString :=
  match f with
  | Field.undefined => utf16 "undefined"
  | Field.null => utf16 "null"
  | Field.str s => s

/-- One record of the calendar feed. -/
structure Event where
  date : JSString
  time : Field
  time_formatted : Field
  details : JSString
  location : JSString
  type : JSString
  coverage : Field
  url : Field
  video_url : Field
  deriving DecidableEq, Repr

/-- What the code asks of the JavaScript runtime. -/
structure Runtime where
  /-- `new Date(d).toLocaleDateString("en-US", {weekday: "short", month: "short", day: "numeric"})` -/
  shortDate : JSString → JSString
  /-- `new Date(d).toLocaleDateString("en-US", {weekday: "long"})` -/
  dayName : JSString → JSString
  /-- `new Date(d).toLocaleDateString("en-US", {month: "long", day: "numeric", year: "numeric"})` -/
  monthDay : JSString → JSString
  /-- `String.prototype.toUpperCase` -/
  toUpperCase : JSString → JSString
  /-- `String.prototype.localeCompare` -/
  localeCompare : JSString → JSString → Int

/-! ## Alert formatter -/

/-- The callback of `events.map` in `formatEventsForTwitter`; `total` is `events.length`. -/
def alertEventString (rt : Runtime) (total : Nat) (index : Nat) (event : Event) : JSString :=
  let eventNum : JSString := if total > 1 then numberToString (index + 1) ++ utf16 ". " else []
  let date := rt.shortDate event.date
  let time := event.time_formatted.orElse (utf16 "Time TBA")
  let location : JSString :=
    if event.location = utf16 "The White House" then utf16 "🏛️ White House"
    else utf16 "📍 " ++ event.location
  let maxDetailsLength : Int :=
    100 - eventNum.length - date.length - time.length - location.length - 10
  let details : JSString :=
    if (event.details.length : Int) > maxDetailsLength then
      substring event.details 0 (maxDetailsLength - 3) ++ utf16 "..."
    else event.details
  eventNum ++ utf16 "📅 " ++ date ++ utf16 " " ++ time ++ utf16 "\n" ++ location
    ++ utf16 "\n" ++ details

/-- The header line of the alert. -/
def alertHeader (n : Nat) : JSString :=
  if n = 1 then utf16 "🚨 NEW WHITE HOUSE EVENT:"
  else utf16 "🚨 " ++ numberToString n ++ utf16 " NEW WHITE HOUSE EVENTS:"

/-- The hashtag suffix both formatters try to append. -/
def hashtags : JSString := utf16 "\n\n#WhiteHouse #Trump #Schedule"

/-- The step "add hashtags if there's room", shared by both formatters. -/
def appendHashtags (tweetText : JSString) : JSString :=
  if tweetText.length + hashtags.length ≤ 280 then tweetText ++ hashtags else tweetText

/-- The last step of `formatEventsForTwitter`: cut to 277 code units and add `...`
when the text is longer than 280. -/
def clampTweet (tweetText : JSString) : JSString :=
  if tweetText.length > 280 then substring tweetText 0 277 ++ utf16 "..." else tweetText

/-- `formatEventsForTwitter(events)`. -/
def formatEventsForTwitter (rt : Runtime) (events : List Event) : JSString :=
  if events.length = 0 then []
  else
    let header := alertHeader events.length
    let eventStrings :=
      events.enum.map (fun p => alertEventString rt events.length p.1 p.2)
    let tweetText := header ++ utf16 "\n\n" ++ join (utf16 "\n\n") eventStrings
    clampTweet (appendHashtags tweetText)

/-! ## Digest formatter -/

/-- The comparator handed to `allEvents.sort`: by `date`, then by `time || ""`. -/
def compareEvents (rt : Runtime) (a b : Event) : Int :=
  let dateCompare := rt.localeCompare a.date b.date
  if dateCompare ≠ 0 then dateCompare
  else rt.localeCompare (a.time.orElse []) (b.time.orElse [])

/-- The sort of `allEvents` with `compareEvents`. `Array.prototype.sort` is stable, so
for a consistent comparator its result is the one of a stable insertion sort:
an element goes in front of the first later element it does not compare
greater than. -/
def sortEvents (rt : Runtime) (allEvents : List Event) : List Event :=
  allEvents.insertionSort (fun a b => compareEvents rt a b ≤ 0)

/-- One pass of the `forEach` that fills `eventsByDate`: the event is pushed on the
array stored under its `date`, which is created (as the last property) when the
key is not there yet. The object is the list of its own properties in
insertion order, which is the order `Object.keys` reports for keys that are
not array indices, such as ISO dates. -/
def groupInsert (eventsByDate : List (JSString × List Event)) (event : Event) :
    List (JSString × List Event) :=
  match eventsByDate with
  | [] => [(event.date, [event])]
  | (date, dateEvents) :: rest =>
    if date = event.date then (date, dateEvents ++ [event]) :: rest
    else (date, dateEvents) :: groupInsert rest event

/-- The object `eventsByDate` after the `forEach` over the given events. -/
def groupByDate (events : List Event) : List (JSString × List Event) :=
  events.foldl groupInsert []

/-- The sentence the feed uses for a day without public events. -/
def noEventsSentinel : JSString := utf16 "The President has no public events scheduled"

/-- The callback of `dateEvents.map` in `formatScheduleForTwitter`. -/
def scheduleEventString (rt : Runtime) (event : Event) : JSString :=
  let time : JSString :=
    if event.time_formatted.truthy then event.time_formatted.render else []
  let time := rt.toUpperCase time
  let location := utf16 "📍 " ++ event.location
  let details := event.details
  let details : JSString :=
    if details = noEventsSentinel then noEventsSentinel
    else if event.coverage.truthy && decide (event.coverage ≠ Field.str (utf16 "None")) then
      details
    else details
  let details : JSString :=
    if details.length > 60 then substring details 0 57 ++ utf16 "..." else details
  let finalString := time ++ utf16 ":   " ++ details ++ utf16 "\n" ++ location
    ++ utf16 " 👥 " ++ event.coverage.render
  if includes details noEventsSentinel then
    utf16 "❌ The President has no public events scheduled"
  else finalString

/-- The header of one date section, upper-cased. -/
def dateHeader (rt : Runtime) (today date : JSString) : JSString :=
  let isToday := decide (date = today)
  let dayName := rt.dayName date
  let monthDay := rt.monthDay date
  let dateHeader : JSString :=
    if isToday then utf16 "🗓️ Today, " ++ monthDay
    else utf16 "🗓️ " ++ dayName ++ utf16 ", " ++ monthDay
  rt.toUpperCase dateHeader

/-- The callback of `Object.keys(eventsByDate).map`: one date section. -/
def dateString (rt : Runtime) (today : JSString) (entry : JSString × List Event) : JSString :=
  let eventStrings := entry.2.map (scheduleEventString rt)
  dateHeader rt today entry.1 ++ utf16 "\n\n" ++ join (utf16 "\n\n") eventStrings

/-- The rule between two date sections. -/
def sectionSeparator : JSString := utf16 "\n\n━━━━━━━━━━━━━━━━━━━━\n\n"

/-- The sections of the given groups joined by the separator rule. -/
def digestBody (rt : Runtime) (today : JSString)
    (eventsByDate : List (JSString × List Event)) : JSString :=
  join sectionSeparator (eventsByDate.map (dateString rt today))

/-- The line that reports how many events were left out. -/
def moreEventsLine (k : Nat) : JSString :=
  utf16 "\n\n+ " ++ numberToString k ++ utf16 " more events..."

/-- The value of `tweetText` in `formatScheduleForTwitter` right before the hashtag
step, for the concatenated (unsorted) `allEvents`. -/
def assembleDigest (rt : Runtime) (today : JSString) (allEvents : List Event) : JSString :=
  let allEvents := sortEvents rt allEvents
  let eventsByDate := groupByDate (allEvents.take 8)
  let tweetText := digestBody rt today eventsByDate
  if allEvents.length > 8 then tweetText ++ moreEventsLine (allEvents.length - 8)
  else tweetText

/-- `formatScheduleForTwitter(todayEvents, upcomingEvents)`; `today` is the date part of
`new Date().toISOString()`. -/
def formatScheduleForTwitter (rt : Runtime) (today : JSString)
    (todayEvents upcomingEvents : List Event) : JSString :=
  let allEvents := todayEvents ++ upcomingEvents
  if allEvents.length = 0 then []
  else appendHashtags (assembleDigest rt today allEvents)

/-! ## Windowing, identity and change detection -/

/-- `filterToLatest14Days(events)`; `cutoffDate` is the ISO date of fourteen days
before the clock reading. -/
def filterToLatest14Days (cutoffDate : JSString) (events : List Event) : List Event :=
  events.filter (fun event => jsGe event.date cutoffDate)

/-- `createEventId(event)`. -/
def createEventId (event : Event) : JSString :=
  event.date ++ utf16 "_" ++ event.time.orElse (utf16 "no-time") ++ utf16 "_"
    ++ event.details ++ utf16 "_" ++ event.location ++ utf16 "_" ++ event.type

/-- The module-level variables of `src/index.js`. -/
structure TrackerState where
  scheduleData : List Event
  latestEvents : List Event
  todayEvents : List Event
  upcomingEvents : List Event
  previousScheduleData : List Event
  isFirstFetch : Bool
  deriving DecidableEq, Repr

/-- The state the module starts with. -/
def TrackerState.initial : TrackerState :=
  TrackerState.mk [] [] [] [] [] true

/-- `detectNewEvents(currentData)`, reading `isFirstFetch` and `previousScheduleData`.
The `Set` of previous identifiers is the list of them; `has` is membership. -/
def detectNewEvents (st : TrackerState) (currentData : List Event) : List Event :=
  if st.isFirstFetch || decide (st.previousScheduleData.length = 0) then []
  else
    let previousEventIds := st.previousScheduleData.map createEventId
    currentData.filter (fun event => !(previousEventIds.contains (createEventId event)))

/-- `parseCalendarData(data)`: refreshes the four cached views. -/
def parseCalendarData (today : JSString) (data : List Event) (st : TrackerState) :
    TrackerState :=
  TrackerState.mk data (data.take 10)
    (data.filter (fun event => decide (event.date = today)))
    (data.filter (fun event => jsLt today event.date))
    st.previousScheduleData st.isFirstFetch

/-- The two dates one poll cycle derives from the wall clock. -/
structure Clock where
  /-- The date part of `new Date().toISOString()` -/
  today : JSString
  /-- The date part of the ISO form of (now minus 14 days) -/
  cutoffDate : JSString

/-- One run of `fetchCalendarData`. `response` is `none` when `axios.get` rejects (the
`catch` branch only logs) and the feed otherwise. The result is the new state
and the texts passed to `sendTweet`, which never throws into the cycle. -/
def fetchCalendarData (rt : Runtime) (clock : Clock) (response : Option (List Event))
    (st : TrackerState) : TrackerState × List JSString :=
  match response with
  | none => (st, [])
  | some data =>
    let filteredCurrentData := filterToLatest14Days clock.cutoffDate data
    let newEvents := detectNewEvents st filteredCurrentData
    let afterBranch : TrackerState × List JSString :=
      if st.isFirstFetch then
        (TrackerState.mk st.scheduleData st.latestEvents st.todayEvents st.upcomingEvents
          st.previousScheduleData false, [])
      else if newEvents.length > 0 then
        let parsed := parseCalendarData clock.today data st
        let tweetText :=
          formatScheduleForTwitter rt clock.today parsed.todayEvents parsed.upcomingEvents
        if tweetText ≠ [] then (parsed, [tweetText]) else (parsed, [])
      else (st, [])
    let st1 := afterBranch.1
    let st2 := TrackerState.mk st1.scheduleData st1.latestEvents st1.todayEvents
      st1.upcomingEvents filteredCurrentData st1.isFirstFetch
    (parseCalendarData clock.today data st2, afterBranch.2)

/-- The shape `YYYY-MM-DD` of a feed date: ten code units, digits except for the two
hyphens. -/
def isISODate (s : JSString) : Bool :=
  match s with
  | [y1, y2, y3, y4, h1, m1, m2, h2, d1, d2] =>
    [y1, y2, y3, y4, m1, m2, d1, d2].all (fun c => decide (48 ≤ c ∧ c ≤ 57))
      && decide (h1 = 45) && decide (h2 = 45)
  | _ => false

/-- The code-unit order as a three-way comparison. -/
def codeUnitCompare (a b : JSString) : Int :=
  if jsLt a b then -1 else if jsLt b a then 1 else 0

/-! ## The parts of an event's text, by name -/

/-- The value of `details` in the callback of `formatScheduleForTwitter` at the time
the line is built and tested for the sentinel. -/
def scheduleDetails (event : Event) : JSString :=
  let details := event.details
  let details : JSString :=
    if details = noEventsSentinel then noEventsSentinel
    else if event.coverage.truthy && decide (event.coverage ≠ Field.str (utf16 "None")) then
      details
    else details
  if details.length > 60 then substring details 0 57 ++ utf16 "..." else details

/-- The value first given to `finalString` in the callback of
`formatScheduleForTwitter`: time, details, location and coverage of the event. -/
def scheduleFinalString (rt : Runtime) (event : Event) : JSString :=
  let time : JSString :=
    if event.time_formatted.truthy then event.time_formatted.render else []
  let time := rt.toUpperCase time
  let location := utf16 "📍 " ++ event.location
  time ++ utf16 ":   " ++ scheduleDetails event ++ utf16 "\n" ++ location
    ++ utf16 " 👥 " ++ event.coverage.render

/-- The value of `eventNum` in the callback of `formatEventsForTwitter`. -/
def alertEventNum (total index : Nat) : JSString :=
  if total > 1 then numberToString (index + 1) ++ utf16 ". " else []

/-- The value of `location` in the callback of `formatEventsForTwitter`. -/
def alertLocation (event : Event) : JSString :=
  if event.location = utf16 "The White House" then utf16 "🏛️ White House"
  else utf16 "📍 " ++ event.location

/-- The value of `maxDetailsLength` in the callback of `formatEventsForTwitter`. -/
def alertMaxDetailsLength (rt : Runtime) (total index : Nat) (event : Event) : Int :=
  100 - (alertEventNum total index).length - (rt.shortDate event.date).length
    - (event.time_formatted.orElse (utf16 "Time TBA")).length - (alertLocation event).length
    - 10

/-- The value of `details` put into the block by the callback of
`formatEventsForTwitter`. -/
def alertDetails (rt : Runtime) (total index : Nat) (event : Event) : JSString :=
  if (event.details.length : Int) > alertMaxDetailsLength rt total index event then
    substring event.details 0 (alertMaxDetailsLength rt total index event - 3) ++ utf16 "..."
  else event.details

/-! ## What the proofs ask of `localeCompare` -/

/-- A consistent comparator in the sense of `Array.prototype.sort`: the sign flips
when the arguments are swapped, and "not greater" is transitive. -/
def ConsistentCompare (lc : JSString → JSString → Int) : Prop :=
  (∀ x y, lc x y < 0 ↔ 0 < lc y x) ∧ (∀ x y z, lc x y ≤ 0 → lc y z ≤ 0 → lc x z ≤ 0)

/-- On two dates of the shape `YYYY-MM-DD` the collation order is the code-unit order
(digits collate in numeric order and the hyphens sit at the same places). -/
def AgreesOnISODates (lc : JSString → JSString → Int) : Prop :=
  ∀ x y, isISODate x = true → isISODate y = true →
    (lc x y < 0 ↔ jsLt x y = true) ∧ (0 < lc x y ↔ jsLt y x = true)

/-! ## Sample data -/

/-- A feed record with the given date, raw time, details and location, of type
`"event"`, with no display time, coverage or links. -/
def sampleEvent (date : String) (time : Field) (details location : String) : Event :=
  Event.mk (utf16 date) time Field.undefined (utf16 details) (utf16 location)
    (utf16 "event") Field.undefined Field.undefined Field.undefined

/-- A runtime that formats every date as `Wed, Jan 15` / `Wednesday` /
`January 15, 2025`, leaves case alone and compares by code units. -/
def sampleRuntime : Runtime :=
  Runtime.mk (fun _ => utf16 "Wed, Jan 15") (fun _ => utf16 "Wednesday")
    (fun _ => utf16 "January 15, 2025") (fun s => s) codeUnitCompare

/-- A state after the first fetch whose previous snapshot is the given list. -/
def trackingState (previous : List Event) : TrackerState :=
  TrackerState.mk previous (previous.take 10) [] [] previous false

/-- A record dated 2025-01-15 with details `Remarks` whose location is 300 letters `A`. -/
def longLocationEvent : Event :=
  Event.mk (utf16 "2025-01-15") Field.undefined Field.undefined (utf16 "Remarks")
    (List.replicate 300 65) (utf16 "event") Field.undefined Field.undefined Field.undefined

/-- Ten records, two for each day from 2025-01-15 to 2025-01-19, days not in order. -/
def tenEvents : List Event :=
  ["2025-01-19", "2025-01-15", "2025-01-17", "2025-01-16", "2025-01-18",
    "2025-01-15", "2025-01-19", "2025-01-16", "2025-01-18", "2025-01-17"].map
    (fun d => sampleEvent d Field.undefined "Remarks" "Oval Office")

/-- ASCII letters `a` to `z` put in upper case, every other code unit kept: what
`toUpperCase` does on the texts of the sample data. -/
def asciiUpper (s : JSString) : JSString :=
  s.map (fun c => if 97 ≤ c ∧ c ≤ 122 then c - 32 else c)

/-- The en-US short date of the five sample days of January 2025, in the UTC zone. -/
def calendarShortDate (d : JSString) : JSString :=
  if d = utf16 "2025-01-15" then utf16 "Wed, Jan 15"
  else if d = utf16 "2025-01-16" then utf16 "Thu, Jan 16"
  else if d = utf16 "2025-01-17" then utf16 "Fri, Jan 17"
  else if d = utf16 "2025-01-18" then utf16 "Sat, Jan 18"
  else if d = utf16 "2025-01-19" then utf16 "Sun, Jan 19"
  else utf16 "Invalid Date"

/-- The en-US long weekday of the five sample days of January 2025, in the UTC zone. -/
def calendarDayName (d : JSString) : JSString :=
  if d = utf16 "2025-01-15" then utf16 "Wednesday"
  else if d = utf16 "2025-01-16" then utf16 "Thursday"
  else if d = utf16 "2025-01-17" then utf16 "Friday"
  else if d = utf16 "2025-01-18" then utf16 "Saturday"
  else if d = utf16 "2025-01-19" then utf16 "Sunday"
  else utf16 "Invalid Date"

/-- The en-US long month, day and year of the five sample days of January 2025. -/
def calendarMonthDay (d : JSString) : JSString :=
  if d = utf16 "2025-01-15" then utf16 "January 15, 2025"
  else if d = utf16 "2025-01-16" then utf16 "January 16, 2025"
  else if d = utf16 "2025-01-17" then utf16 "January 17, 2025"
  else if d = utf16 "2025-01-18" then utf16 "January 18, 2025"
  else if d = utf16 "2025-01-19" then utf16 "January 19, 2025"
  else utf16 "Invalid Date"

/-- A runtime in the UTC zone, defined on the five sample days: real date texts, ASCII
upper-casing and comparison by code units. -/
def calendarRuntime : Runtime :=
  Runtime.mk calendarShortDate calendarDayName calendarMonthDay asciiUpper codeUnitCompare

/-- A feed record of type `"event"` with a raw time, a display time and a coverage. -/
def timedEvent (date time timeFormatted details location coverage : String) : Event :=
  Event.mk (utf16 date) (Field.str (utf16 time)) (Field.str (utf16 timeFormatted))
    (utf16 details) (utf16 location) (utf16 "event") (Field.str (utf16 coverage))
    Field.undefined Field.undefined

/-- Ten records over the five sample days, two a day, neither days nor times in
order; `E8` has no time. -/
def tenTimedEvents : List Event :=
  [timedEvent "2025-01-19" "10:00:00" "10:00 am" "E1" "X" "Open",
    timedEvent "2025-01-15" "14:00:00" "2:00 pm" "E2" "X" "Open",
    timedEvent "2025-01-17" "09:00:00" "9:00 am" "E3" "X" "Open",
    timedEvent "2025-01-16" "11:30:00" "11:30 am" "E4" "X" "Open",
    timedEvent "2025-01-18" "16:00:00" "4:00 pm" "E5" "X" "Open",
    timedEvent "2025-01-15" "09:30:00" "9:30 am" "E6" "X" "Open",
    timedEvent "2025-01-19" "08:00:00" "8:00 am" "E7" "X" "Open",
    sampleEvent "2025-01-16" Field.undefined "E8" "X",
    timedEvent "2025-01-18" "12:00:00" "12:00 pm" "E9" "X" "Open",
    timedEvent "2025-01-17" "13:00:00" "1:00 pm" "E10" "X" "Open"]

/-! ## Basic facts about strings -/

theorem substring_zero (s : JSString) (k : Int) :
    substring s 0 k = s.take k.toNat := by
  unfold substring
  simp only [max_self, Int.toNat_zero, Nat.zero_le, min_eq_left, List.drop_zero,
    Nat.sub_zero, zero_le, max_eq_right]
  have h0 : min (0 : Int) (s.length : Int) = 0 := min_eq_left (by omega)
  simp only [h0, Int.toNat_zero, Nat.zero_le, min_eq_left, List.drop_zero,
    Nat.sub_zero, zero_le, max_eq_right]
  rcases le_or_lt k 0 with hk | hk
  · have : max k 0 = 0 := max_eq_right hk
    simp [this, h0, Int.toNat_of_nonpos hk]
  · have h1 : max k 0 = k := max_eq_left hk.le
    rw [h1]
    rcases le_or_lt k (s.length : Int) with hl | hl
    · rw [min_eq_left hl]
    · rw [min_eq_right hl.le]
      simp only [Int.toNat_ofNat]
      rw [List.take_of_length_le (le_refl _), List.take_of_length_le]
      omega

theorem ellipsis_length : (utf16 "...").length = 3 := by decide

theorem clampTweet_eq_take (t : JSString) (h : 280 < t.length) :
    clampTweet t = t.take 277 ++ utf16 "..." := by
  unfold clampTweet
  rw [if_pos h, substring_zero]
  rfl

theorem clampTweet_length_le (t : JSString) : (clampTweet t).length ≤ 280 := by
  by_cases h : 280 < t.length
  · rw [clampTweet_eq_take t h, List.length_append, ellipsis_length, List.length_take]
    omega
  · unfold clampTweet
    rw [if_neg h]
    omega

/-! ## The code-unit order -/

theorem jsLt_irrefl : ∀ a : JSString, jsLt a a = false
  | [] => by simp [jsLt]
  | x :: xs => by simp [jsLt, jsLt_irrefl xs]

theorem jsLt_asymm : ∀ a b : JSString, jsLt a b = true → jsLt b a = false
  | [], [] => by simp [jsLt]
  | [], _ :: _ => by simp [jsLt]
  | _ :: _, [] => by simp [jsLt]
  | x :: xs, y :: ys => by
    intro h
    simp only [jsLt] at h ⊢
    by_cases hxy : x < y
    · have hyx : ¬ y < x := by omega
      simp [hyx, hxy]
    · by_cases hyx : y < x
      · simp [hxy, hyx] at h
      · simp only [hxy, hyx, if_false] at h ⊢
        exact jsLt_asymm xs ys h

theorem jsLt_cotrans : ∀ a b c : JSString,
    jsLt a c = true → jsLt a b = true ∨ jsLt b c = true
  | _, _, [] => by simp [jsLt]
  | [], [], _ :: _ => by simp [jsLt]
  | [], _ :: _, _ :: _ => by simp [jsLt]
  | _ :: _, [], _ :: _ => by simp [jsLt]
  | x :: xs, y :: ys, z :: zs => by
    intro h
    simp only [jsLt] at h ⊢
    by_cases hxy : x < y
    · simp [hxy]
    · by_cases hyz : y < z
      · simp [hyz]
      · by_cases hxz : x < z
        · omega
        · have hzx : ¬ z < x := by
            intro hzx
            simp [hxz, hzx] at h
          have hyx : ¬ y < x := by omega
          have hzy : ¬ z < y := by omega
          simp only [hxz, hzx, if_false] at h
          simp only [hxy, hyx, hyz, hzy, if_false]
          exact jsLt_cotrans xs ys zs h

theorem jsLt_trans (a b c : JSString) (hab : jsLt a b = true) (hbc : jsLt b c = true) :
    jsLt a c = true := by
  rcases jsLt_cotrans a c b hab with h | h
  · exact h
  · rw [jsLt_asymm b c hbc] at h
    exact absurd h (by simp)

theorem jsLt_trichotomy : ∀ a b : JSString,
    jsLt a b = false → jsLt b a = false → a = b
  | [], [] => by simp
  | [], _ :: _ => by simp [jsLt]
  | _ :: _, [] => by simp [jsLt]
  | x :: xs, y :: ys => by
    intro h1 h2
    simp only [jsLt] at h1 h2
    by_cases hxy : x < y
    · simp [hxy] at h1
    · by_cases hyx : y < x
      · simp [hyx] at h2
      · simp only [hxy, hyx, if_false] at h1 h2
        have hx : x = y := by omega
        rw [hx, jsLt_trichotomy xs ys h1 h2]

theorem jsGe_trans (a b c : JSString) (hab : jsGe a b = true) (hbc : jsGe b c = true) :
    jsGe a c = true := by
  unfold jsGe at *
  cases hac : jsLt a c
  · rfl
  · rcases jsLt_cotrans a b c hac with h | h
    · simp [h] at hab
    · simp [h] at hbc

/-! ## The poll cycle -/

theorem parseCalendarData_previous (today : JSString) (data : List Event) (st : TrackerState) :
    (parseCalendarData today data st).previousScheduleData = st.previousScheduleData := rfl

theorem parseCalendarData_flag (today : JSString) (data : List Event) (st : TrackerState) :
    (parseCalendarData today data st).isFirstFetch = st.isFirstFetch := rfl

theorem fetchCalendarData_previous (rt : Runtime) (clock : Clock) (data : List Event)
    (st : TrackerState) :
    (fetchCalendarData rt clock (some data) st).1.previousScheduleData
      = filterToLatest14Days clock.cutoffDate data := rfl

theorem fetchCalendarData_flag (rt : Runtime) (clock : Clock) (data : List Event)
    (st : TrackerState) :
    (fetchCalendarData rt clock (some data) st).1.isFirstFetch = false := by
  simp only [fetchCalendarData, parseCalendarData]
  cases hf : st.isFirstFetch
  · simp only [Bool.false_eq_true, if_false]
    split
    · split <;> rfl
    · exact hf
  · simp

theorem fetchCalendarData_sent_of_no_new (rt : Runtime) (clock : Clock) (data : List Event)
    (st : TrackerState) (hflag : st.isFirstFetch = false)
    (hnone : detectNewEvents st (filterToLatest14Days clock.cutoffDate data) = []) :
    (fetchCalendarData rt clock (some data) st).2 = [] := by
  simp [fetchCalendarData, hflag, hnone]

theorem detectNewEvents_of_subset (st : TrackerState) (current : List Event)
    (hsub : ∀ e ∈ current, e ∈ st.previousScheduleData) :
    detectNewEvents st current = [] := by
  unfold detectNewEvents
  split
  · rfl
  · rw [List.filter_eq_nil_iff]
    intro e he
    have hmem : createEventId e ∈ st.previousScheduleData.map createEventId :=
      List.mem_map.mpr ⟨e, hsub e he, rfl⟩
    simpa using hmem

/-! ## The digest is not empty -/

theorem join_cons_ne_nil (sep x : JSString) (rest : List JSString) (hx : x ≠ []) :
    join sep (x :: rest) ≠ [] := by
  cases rest with
  | nil => simpa [join] using hx
  | cons y ys => simp [join, hx]

theorem groupInsert_ne_nil (g : List (JSString × List Event)) (e : Event) :
    groupInsert g e ≠ [] := by
  cases g with
  | nil => simp [groupInsert]
  | cons p rest =>
    obtain ⟨d, es⟩ := p
    unfold groupInsert
    split <;> simp

theorem foldl_groupInsert_ne_nil (l : List Event) :
    ∀ g : List (JSString × List Event), g ≠ [] → l.foldl groupInsert g ≠ [] := by
  induction l with
  | nil => intro g hg; simpa using hg
  | cons e l ih =>
    intro g _
    rw [List.foldl_cons]
    exact ih _ (groupInsert_ne_nil g e)

theorem groupByDate_ne_nil (l : List Event) (hl : l ≠ []) : groupByDate l ≠ [] := by
  cases l with
  | nil => exact absurd rfl hl
  | cons e l =>
    unfold groupByDate
    rw [List.foldl_cons]
    exact foldl_groupInsert_ne_nil l _ (groupInsert_ne_nil [] e)

theorem sortEvents_length (rt : Runtime) (l : List Event) :
    (sortEvents rt l).length = l.length :=
  List.length_insertionSort _ l

theorem newlines_ne_nil : utf16 "\n\n" ≠ [] := by decide

theorem dateString_ne_nil (rt : Runtime) (today : JSString) (entry : JSString × List Event) :
    dateString rt today entry ≠ [] := by
  unfold dateString
  intro h
  have h1 := (List.append_eq_nil.mp h).1
  exact newlines_ne_nil (List.append_eq_nil.mp h1).2

theorem digestBody_ne_nil (rt : Runtime) (today : JSString)
    (g : List (JSString × List Event)) (hg : g ≠ []) : digestBody rt today g ≠ [] := by
  cases g with
  | nil => exact absurd rfl hg
  | cons p rest =>
    unfold digestBody
    rw [List.map_cons]
    exact join_cons_ne_nil _ _ _ (dateString_ne_nil rt today p)

theorem assembleDigest_ne_nil (rt : Runtime) (today : JSString) (l : List Event)
    (hl : l ≠ []) : assembleDigest rt today l ≠ [] := by
  have hs : (sortEvents rt l).take 8 ≠ [] := by
    intro h
    have hlen := congrArg List.length h
    rw [List.length_take, sortEvents_length] at hlen
    have : l.length ≠ 0 := fun h0 => hl (List.length_eq_zero.mp h0)
    simp only [List.length_nil] at hlen
    omega
  have hb := digestBody_ne_nil rt today _ (groupByDate_ne_nil _ hs)
  unfold assembleDigest
  simp only []
  split
  · intro h
    exact hb (List.append_eq_nil.mp h).1
  · exact hb

theorem appendHashtags_ne_nil (t : JSString) (ht : t ≠ []) : appendHashtags t ≠ [] := by
  unfold appendHashtags
  split
  · intro h
    exact ht (List.append_eq_nil.mp h).1
  · exact ht

theorem formatScheduleForTwitter_ne_nil (rt : Runtime) (today : JSString)
    (todayEvents upcomingEvents : List Event) (h : todayEvents ++ upcomingEvents ≠ []) :
    formatScheduleForTwitter rt today todayEvents upcomingEvents ≠ [] := by
  unfold formatScheduleForTwitter
  have hlen : (todayEvents ++ upcomingEvents).length ≠ 0 :=
    fun h0 => h (List.length_eq_zero.mp h0)
  simp only [hlen, if_false]
  exact appendHashtags_ne_nil _ (assembleDigest_ne_nil rt today _ h)

theorem formatScheduleForTwitter_nil (rt : Runtime) (today : JSString) :
    formatScheduleForTwitter rt today [] [] = [] := by
  simp [formatScheduleForTwitter]

/-! ## Prefixes that survive the last two steps of the alert -/

theorem prefix_appendHashtags (p t : JSString) (h : p <+: t) : p <+: appendHashtags t := by
  unfold appendHashtags
  split
  · exact h.trans (List.prefix_append _ _)
  · exact h

theorem prefix_clampTweet (p t : JSString) (h : p <+: t) (hlen : p.length ≤ 277) :
    p <+: clampTweet t := by
  by_cases hbig : 280 < t.length
  · rw [clampTweet_eq_take t hbig]
    obtain ⟨r, rfl⟩ := h
    rw [List.take_append_eq_append_take, List.take_of_length_le hlen, List.append_assoc]
    exact List.prefix_append _ _
  · unfold clampTweet
    rw [if_neg hbig]
    exact h

theorem numberToString_length (n : Nat) (hn : n < 2 ^ 32) :
    (numberToString n).length ≤ 10 := by
  unfold numberToString
  rw [List.length_map]
  exact Nat.repr_length n 10 (by decide) (lt_of_lt_of_le hn (by norm_num))

theorem alertHeader_prefix (rt : Runtime) (events : List Event) (h0 : events.length ≠ 0)
    (hlen : (alertHeader events.length).length ≤ 277) :
    alertHeader events.length <+: formatEventsForTwitter rt events := by
  unfold formatEventsForTwitter
  rw [if_neg h0]
  apply prefix_clampTweet _ _ _ hlen
  apply prefix_appendHashtags
  rw [List.append_assoc]
  exact List.prefix_append _ _

/-! ## A digest longer than the budget -/

theorem appendHashtags_length_ge (t : JSString) : t.length ≤ (appendHashtags t).length := by
  unfold appendHashtags
  split
  · rw [List.length_append]
    omega
  · exact le_refl _

theorem scheduleEventString_longLocation (rt : Runtime) :
    300 ≤ (scheduleEventString rt longLocationEvent).length := by
  have hinc : includes (utf16 "Remarks") noEventsSentinel = false := by decide
  have hne : utf16 "Remarks" ≠ noEventsSentinel := by decide
  have hlen : ¬ (utf16 "Remarks").length > 60 := by decide
  simp only [scheduleEventString, longLocationEvent, hne, if_false, hlen, hinc,
    Bool.false_eq_true, ite_self, List.length_append, List.length_replicate]
  omega

theorem formatScheduleForTwitter_longLocation (rt : Runtime) (today : JSString) :
    280 < (formatScheduleForTwitter rt today [longLocationEvent] []).length := by
  have heq : formatScheduleForTwitter rt today [longLocationEvent] []
      = appendHashtags (dateHeader rt today longLocationEvent.date ++ utf16 "\n\n"
          ++ scheduleEventString rt longLocationEvent) := by
    simp [formatScheduleForTwitter, assembleDigest, sortEvents, groupByDate, groupInsert,
      digestBody, dateString, join]
  rw [heq]
  have h1 := appendHashtags_length_ge (dateHeader rt today longLocationEvent.date
    ++ utf16 "\n\n" ++ scheduleEventString rt longLocationEvent)
  have h2 := scheduleEventString_longLocation rt
  rw [List.length_append] at h1
  omega

/-! ## Grouping by date -/

theorem groupInsert_keys (g : List (JSString × List Event)) (e : Event) :
    (groupInsert g e).map Prod.fst
      = if e.date ∈ g.map Prod.fst then g.map Prod.fst else g.map Prod.fst ++ [e.date] := by
  induction g with
  | nil => simp [groupInsert]
  | cons p rest ih =>
    obtain ⟨d, es⟩ := p
    by_cases h : d = e.date
    · simp [groupInsert, h]
    · have h' : ¬ e.date = d := fun hh => h hh.symm
      simp only [groupInsert, h, if_false, List.map_cons, ih, List.mem_cons, h', false_or]
      by_cases hm : e.date ∈ rest.map Prod.fst
      · simp [hm]
      · simp [hm]

theorem groupInsert_perm (g : List (JSString × List Event)) (e : Event) :
    ((groupInsert g e).flatMap Prod.snd).Perm (g.flatMap Prod.snd ++ [e]) := by
  induction g with
  | nil => simp [groupInsert]
  | cons p rest ih =>
    obtain ⟨d, es⟩ := p
    by_cases h : d = e.date
    · simp only [groupInsert, h, if_true, List.flatMap_cons, List.append_assoc]
      exact List.Perm.append_left es List.perm_append_comm
    · simp only [groupInsert, h, if_false, List.flatMap_cons, List.append_assoc]
      exact List.Perm.append_left es ih

theorem groupByDate_snoc (l : List Event) (e : Event) :
    groupByDate (l ++ [e]) = groupInsert (groupByDate l) e := by
  simp [groupByDate, List.foldl_append]

theorem groupByDate_perm (l : List Event) : ((groupByDate l).flatMap Prod.snd).Perm l := by
  induction l using List.reverseRecOn with
  | nil => simp [groupByDate]
  | append_singleton l e ih =>
    rw [groupByDate_snoc]
    exact (groupInsert_perm _ e).trans (List.Perm.append_right [e] ih)

theorem groupByDate_keys (l : List Event) (d : JSString) :
    d ∈ (groupByDate l).map Prod.fst ↔ ∃ e ∈ l, e.date = d := by
  induction l using List.reverseRecOn with
  | nil => simp [groupByDate]
  | append_singleton l e ih =>
    rw [groupByDate_snoc, groupInsert_keys]
    by_cases hm : e.date ∈ (groupByDate l).map Prod.fst
    · rw [if_pos hm, ih]
      constructor
      · rintro ⟨x, hx, hxd⟩
        exact ⟨x, List.mem_append_left _ hx, hxd⟩
      · rintro ⟨x, hx, hxd⟩
        rcases List.mem_append.mp hx with hx | hx
        · exact ⟨x, hx, hxd⟩
        · rw [List.mem_singleton] at hx
          rw [hx] at hxd
          rw [hxd] at hm
          exact ih.mp hm
    · rw [if_neg hm, List.mem_append, ih, List.mem_singleton]
      constructor
      · rintro (⟨x, hx, hxd⟩ | hd)
        · exact ⟨x, List.mem_append_left _ hx, hxd⟩
        · exact ⟨e, List.mem_append_right _ (List.mem_singleton.mpr rfl), hd.symm⟩
      · rintro ⟨x, hx, hxd⟩
        rcases List.mem_append.mp hx with hx | hx
        · exact Or.inl ⟨x, hx, hxd⟩
        · rw [List.mem_singleton] at hx
          rw [hx] at hxd
          exact Or.inr hxd.symm

theorem groupByDate_keys_nodup (l : List Event) : ((groupByDate l).map Prod.fst).Nodup := by
  induction l using List.reverseRecOn with
  | nil => simp [groupByDate]
  | append_singleton l e ih =>
    rw [groupByDate_snoc, groupInsert_keys]
    by_cases hm : e.date ∈ (groupByDate l).map Prod.fst
    · rw [if_pos hm]
      exact ih
    · rw [if_neg hm]
      rw [List.nodup_append]
      refine ⟨ih, List.nodup_singleton _, ?_⟩
      intro x hx hx'
      rw [List.mem_singleton] at hx'
      exact hm (hx' ▸ hx)

theorem groupInsert_entries (l : List Event) (e : Event) :
    ∀ g : List (JSString × List Event),
      (∀ p ∈ g, p.2 = l.filter (fun x => decide (x.date = p.1))) →
      (g.map Prod.fst).Nodup →
      (e.date ∉ g.map Prod.fst → l.filter (fun x => decide (x.date = e.date)) = []) →
      ∀ p ∈ groupInsert g e, p.2 = (l ++ [e]).filter (fun x => decide (x.date = p.1)) := by
  intro g
  induction g with
  | nil =>
    intro _ _ h3 p hp
    simp only [groupInsert, List.mem_singleton] at hp
    rw [hp, List.filter_append]
    simp [h3]
  | cons q rest ih =>
    obtain ⟨d, es⟩ := q
    intro h1 h2 h3 p hp
    rw [List.map_cons, List.nodup_cons] at h2
    by_cases h : d = e.date
    · simp only [groupInsert, h, if_true, List.mem_cons] at hp
      rcases hp with hp | hp
      · have hes := h1 (d, es) (List.mem_cons_self _ _)
        simp only at hes
        rw [hp, List.filter_append, hes, h]
        simp
      · have hne : ¬ e.date = p.1 := by
          intro heq
          apply h2.1
          rw [h, heq]
          exact List.mem_map.mpr ⟨p, hp, rfl⟩
        rw [List.filter_append, h1 p (List.mem_cons_of_mem _ hp)]
        simp [hne]
    · simp only [groupInsert, h, if_false, List.mem_cons] at hp
      have h' : ¬ e.date = d := fun hh => h hh.symm
      rcases hp with hp | hp
      · have hes := h1 (d, es) (List.mem_cons_self _ _)
        simp only at hes
        rw [hp, List.filter_append, hes]
        simp [h']
      · apply ih (fun p hp => h1 p (List.mem_cons_of_mem _ hp)) h2.2 _ p hp
        intro hnot
        apply h3
        simp only [List.map_cons, List.mem_cons, not_or]
        exact ⟨h', hnot⟩

theorem groupByDate_entries (l : List Event) :
    ∀ p ∈ groupByDate l, p.2 = l.filter (fun x => decide (x.date = p.1)) := by
  induction l using List.reverseRecOn with
  | nil => simp [groupByDate]
  | append_singleton l e ih =>
    rw [groupByDate_snoc]
    apply groupInsert_entries l e _ ih (groupByDate_keys_nodup l)
    intro hnot
    rw [List.filter_eq_nil_iff]
    intro x hx
    simp only [decide_eq_true_eq]
    intro hxd
    exact hnot ((groupByDate_keys l e.date).mpr ⟨x, hx, hxd⟩)

theorem groupByDate_keys_ascending (l : List Event)
    (hl : l.Pairwise (fun a b => jsLt b.date a.date = false)) :
    ((groupByDate l).map Prod.fst).Pairwise (fun a b => jsLt a b = true) := by
  induction l using List.reverseRecOn with
  | nil => simp [groupByDate]
  | append_singleton l e ih =>
    rw [List.pairwise_append] at hl
    obtain ⟨hl1, _, hl2⟩ := hl
    rw [groupByDate_snoc, groupInsert_keys]
    by_cases hm : e.date ∈ (groupByDate l).map Prod.fst
    · rw [if_pos hm]
      exact ih hl1
    · rw [if_neg hm, List.pairwise_append]
      refine ⟨ih hl1, List.pairwise_singleton _ _, ?_⟩
      intro k hk b hb
      rw [List.mem_singleton] at hb
      obtain ⟨x, hx, hxd⟩ := (groupByDate_keys l k).mp hk
      have hle := hl2 x hx e (List.mem_singleton.mpr rfl)
      rw [hb, ← hxd]
      cases hlt : jsLt x.date e.date
      · exfalso
        apply hm
        rw [← jsLt_trichotomy _ _ hlt hle, hxd]
        exact hk
      · rfl

/-! ## The sort -/

theorem sortEvents_perm (rt : Runtime) (l : List Event) : (sortEvents rt l).Perm l :=
  List.perm_insertionSort _ l

theorem compareEvents_total (rt : Runtime) (hc : ConsistentCompare rt.localeCompare)
    (a b : Event) : compareEvents rt a b ≤ 0 ∨ compareEvents rt b a ≤ 0 := by
  obtain ⟨hanti, _⟩ := hc
  have h1 := hanti a.date b.date
  have h2 := hanti b.date a.date
  have h3 := hanti (a.time.orElse []) (b.time.orElse [])
  have h4 := hanti (b.time.orElse []) (a.time.orElse [])
  simp only [compareEvents]
  split_ifs <;> omega

theorem compareEvents_trans (rt : Runtime) (hc : ConsistentCompare rt.localeCompare)
    (a b c : Event) (hab : compareEvents rt a b ≤ 0) (hbc : compareEvents rt b c ≤ 0) :
    compareEvents rt a c ≤ 0 := by
  obtain ⟨hanti, htrans⟩ := hc
  have a1 := hanti a.date b.date
  have a2 := hanti b.date a.date
  have a3 := hanti b.date c.date
  have a4 := hanti c.date b.date
  have a5 := hanti a.date c.date
  have a6 := hanti c.date a.date
  have t1 := htrans a.date b.date c.date
  have t2 := htrans b.date c.date a.date
  have t3 := htrans c.date a.date b.date
  have t4 := htrans c.date b.date a.date
  have t5 := htrans (a.time.orElse []) (b.time.orElse []) (c.time.orElse [])
  simp only [compareEvents] at hab hbc ⊢
  split_ifs at hab hbc ⊢ <;> omega

theorem sortEvents_sorted (rt : Runtime) (hc : ConsistentCompare rt.localeCompare)
    (l : List Event) : (sortEvents rt l).Pairwise (fun a b => compareEvents rt a b ≤ 0) := by
  haveI : IsTotal Event (fun a b => compareEvents rt a b ≤ 0) :=
    ⟨compareEvents_total rt hc⟩
  haveI : IsTrans Event (fun a b => compareEvents rt a b ≤ 0) :=
    ⟨compareEvents_trans rt hc⟩
  exact List.sorted_insertionSort (fun a b => compareEvents rt a b ≤ 0) l

theorem compareEvents_date (rt : Runtime) (hag : AgreesOnISODates rt.localeCompare)
    (a b : Event) (ha : isISODate a.date = true) (hb : isISODate b.date = true) :
    (compareEvents rt a b ≤ 0 → jsLt b.date a.date = false)
      ∧ (¬ compareEvents rt a b ≤ 0 → jsLt a.date b.date = false) := by
  obtain ⟨hlt, hgt⟩ := hag a.date b.date ha hb
  simp only [compareEvents]
  constructor
  · intro h
    cases hba : jsLt b.date a.date
    · rfl
    · have hpos := hgt.mpr hba
      rw [if_pos (by omega)] at h
      omega
  · intro h
    cases hab : jsLt a.date b.date
    · rfl
    · have hneg := hlt.mpr hab
      rw [if_pos (by omega)] at h
      omega

theorem orderedInsert_dateSorted (rt : Runtime) (a : Event) :
    ∀ l : List Event,
      (∀ b ∈ l, (compareEvents rt a b ≤ 0 → jsLt b.date a.date = false)
        ∧ (¬ compareEvents rt a b ≤ 0 → jsLt a.date b.date = false)) →
      l.Pairwise (fun x y => jsLt y.date x.date = false) →
      (l.orderedInsert (fun x y => compareEvents rt x y ≤ 0) a).Pairwise
        (fun x y => jsLt y.date x.date = false) := by
  intro l
  induction l with
  | nil => intro _ _; simp
  | cons b l ih =>
    intro h hl
    rw [List.pairwise_cons] at hl
    simp only [List.orderedInsert]
    split_ifs with hr
    · rw [List.pairwise_cons]
      refine ⟨?_, List.pairwise_cons.mpr hl⟩
      intro x hx
      have hab := (h b (List.mem_cons_self _ _)).1 hr
      rcases List.mem_cons.mp hx with hx | hx
      · rw [hx]; exact hab
      · have hbx := hl.1 x hx
        cases hxa : jsLt x.date a.date
        · rfl
        · rcases jsLt_cotrans _ b.date _ hxa with h1 | h1
          · rw [hbx] at h1; exact absurd h1 (by simp)
          · rw [hab] at h1; exact absurd h1 (by simp)
    · rw [List.pairwise_cons]
      refine ⟨?_, ih (fun x hx => h x (List.mem_cons_of_mem _ hx)) hl.2⟩
      intro x hx
      rcases (List.mem_orderedInsert _).mp hx with hx | hx
      · rw [hx]; exact (h b (List.mem_cons_self _ _)).2 hr
      · exact hl.1 x hx

theorem sortEvents_dateSorted (rt : Runtime) (hag : AgreesOnISODates rt.localeCompare) :
    ∀ l : List Event, (∀ e ∈ l, isISODate e.date = true) →
      (sortEvents rt l).Pairwise (fun x y => jsLt y.date x.date = false) := by
  intro l
  induction l with
  | nil => intro _; simp [sortEvents]
  | cons a l ih =>
    intro hiso
    have hl := ih (fun e he => hiso e (List.mem_cons_of_mem _ he))
    unfold sortEvents at hl ⊢
    rw [List.insertionSort]
    apply orderedInsert_dateSorted rt a _ _ hl
    intro b hb
    rw [List.mem_insertionSort] at hb
    exact compareEvents_date rt hag a b (hiso a (List.mem_cons_self _ _))
      (hiso b (List.mem_cons_of_mem _ hb))

theorem codeUnitCompare_lt (x y : JSString) :
    codeUnitCompare x y < 0 ↔ jsLt x y = true := by
  unfold codeUnitCompare
  split_ifs with h1 h2 <;> simp [h1]

theorem codeUnitCompare_gt (x y : JSString) :
    0 < codeUnitCompare x y ↔ jsLt y x = true := by
  unfold codeUnitCompare
  split_ifs with h1 h2
  · simp [jsLt_asymm x y h1]
  · simp [h2]
  · simp [h2]

theorem codeUnitCompare_consistent : ConsistentCompare codeUnitCompare := by
  constructor
  · intro x y
    rw [codeUnitCompare_lt, codeUnitCompare_gt]
  · intro x y z hxy hyz
    have h1 : jsLt y x = false := by
      cases h : jsLt y x
      · rfl
      · have := (codeUnitCompare_gt x y).mpr h
        omega
    have h2 : jsLt z y = false := by
      cases h : jsLt z y
      · rfl
      · have := (codeUnitCompare_gt y z).mpr h
        omega
    have h3 : jsLt z x = false := by
      cases h : jsLt z x
      · rfl
      · rcases jsLt_cotrans z y x h with h' | h'
        · rw [h2] at h'; exact absurd h' (by simp)
        · rw [h1] at h'; exact absurd h' (by simp)
    have h4 : ¬ 0 < codeUnitCompare x z := by
      rw [codeUnitCompare_gt, h3]
      simp
    omega

theorem codeUnitCompare_agrees : AgreesOnISODates codeUnitCompare :=
  fun x y _ _ => ⟨codeUnitCompare_lt x y, codeUnitCompare_gt x y⟩

/-! ## The two callbacks in terms of their parts -/

theorem scheduleDetails_eq (event : Event) :
    scheduleDetails event
      = if 60 < event.details.length then event.details.take 57 ++ utf16 "..."
        else event.details := by
  have hd : (if event.details = noEventsSentinel then noEventsSentinel
      else if (event.coverage.truthy && decide (event.coverage ≠ Field.str (utf16 "None")))
        = true then event.details else event.details) = event.details := by
    split
    · rename_i h
      exact h.symm
    · simp
  unfold scheduleDetails
  simp only [hd, gt_iff_lt, substring_zero]
  rfl

theorem scheduleEventString_eq (rt : Runtime) (event : Event) :
    scheduleEventString rt event
      = if includes (scheduleDetails event) noEventsSentinel then
          utf16 "❌ The President has no public events scheduled"
        else scheduleFinalString rt event := rfl

theorem alertEventString_eq (rt : Runtime) (total index : Nat) (event : Event) :
    alertEventString rt total index event
      = alertEventNum total index ++ utf16 "📅 " ++ rt.shortDate event.date ++ utf16 " "
        ++ event.time_formatted.orElse (utf16 "Time TBA") ++ utf16 "\n" ++ alertLocation event
        ++ utf16 "\n" ++ alertDetails rt total index event := rfl

/-! ## Decimal numerals -/

theorem toDigitsCore_eq_digits : ∀ (fuel n : Nat) (ds : List Char), 0 < n → n < fuel →
    Nat.toDigitsCore 10 fuel n ds = (Nat.digits 10 n).reverse.map Nat.digitChar ++ ds := by
  intro fuel
  induction fuel with
  | zero => intro n ds _ h; omega
  | succ fuel ih =>
    intro n ds hn hlt
    rw [Nat.digits_def' (by decide) hn]
    simp only [Nat.toDigitsCore]
    by_cases h0 : n / 10 = 0
    · simp [h0]
    · rw [if_neg h0, ih (n / 10) _ (Nat.pos_of_ne_zero h0) (by omega)]
      simp

theorem digitChar_toNat (d : Nat) (hd : d < 10) : (Nat.digitChar d).toNat = d + 48 := by
  interval_cases d <;> rfl

theorem numberToString_eq_digits (n : Nat) (hn : 0 < n) :
    numberToString n = (Nat.digits 10 n).reverse.map (fun d => d + 48) := by
  have hrepr : (Nat.repr n).toList = Nat.toDigits 10 n := rfl
  unfold numberToString
  rw [hrepr, Nat.toDigits, toDigitsCore_eq_digits (n + 1) n [] hn (by omega),
    List.append_nil, List.map_map]
  apply List.map_congr_left
  intro d hd
  exact digitChar_toNat d (Nat.digits_lt_base (by decide) (List.mem_reverse.mp hd))

/-! ## The text of the digest, spelled out -/

theorem compareEvents_le_iff (rt : Runtime) (a b : Event) :
    compareEvents rt a b ≤ 0
      ↔ (rt.localeCompare a.date b.date < 0
          ∨ (rt.localeCompare a.date b.date = 0
            ∧ rt.localeCompare (a.time.orElse []) (b.time.orElse []) ≤ 0)) := by
  simp only [compareEvents]
  split_ifs with h
  · omega
  · constructor
    · intro ht
      exact Or.inr ⟨by omega, ht⟩
    · rintro (h1 | ⟨_, h2⟩)
      · omega
      · exact h2

theorem formatScheduleForTwitter_text (rt : Runtime) (today : JSString)
    (todayEvents upcomingEvents : List Event) (hne : todayEvents ++ upcomingEvents ≠ []) :
    formatScheduleForTwitter rt today todayEvents upcomingEvents
      = appendHashtags
          (join (utf16 "\n\n━━━━━━━━━━━━━━━━━━━━\n\n")
              ((groupByDate ((sortEvents rt (todayEvents ++ upcomingEvents)).take 8)).map
                (fun p =>
                  rt.toUpperCase
                      (if p.1 = today then utf16 "🗓️ Today, " ++ rt.monthDay p.1
                        else utf16 "🗓️ " ++ rt.dayName p.1 ++ utf16 ", " ++ rt.monthDay p.1)
                    ++ utf16 "\n\n" ++ join (utf16 "\n\n") (p.2.map (scheduleEventString rt))))
            ++ (if 8 < (todayEvents ++ upcomingEvents).length then
                  utf16 "\n\n+ "
                    ++ (Nat.digits 10 ((todayEvents ++ upcomingEvents).length - 8)).reverse.map
                        (fun d => d + 48)
                    ++ utf16 " more events..."
                else [])) := by
  have h0 : (todayEvents ++ upcomingEvents).length ≠ 0 :=
    fun h => hne (List.length_eq_zero.mp h)
  have hlen := sortEvents_length rt (todayEvents ++ upcomingEvents)
  have hds : dateString rt today
      = fun p =>
          rt.toUpperCase
              (if p.1 = today then utf16 "🗓️ Today, " ++ rt.monthDay p.1
                else utf16 "🗓️ " ++ rt.dayName p.1 ++ utf16 ", " ++ rt.monthDay p.1)
            ++ utf16 "\n\n" ++ join (utf16 "\n\n") (p.2.map (scheduleEventString rt)) := by
    funext p
    simp [dateString, dateHeader]
  simp only [formatScheduleForTwitter, h0, if_false, assembleDigest, hlen, gt_iff_lt, digestBody,
    hds, sectionSeparator]
  congr 1
  split
  · rename_i h8
    rw [moreEventsLine, numberToString_eq_digits _ (by omega)]
  · simp

/-! ## Claims -/

set_option maxRecDepth 100000

/-- C1: for every list of events, whatever the fields hold and whatever the runtime's
date formatting returns, `formatEventsForTwitter` returns a string of at most 280
UTF-16 code units. -/
theorem formatEventsForTwitter_length_le (rt : Runtime) (events : List Event) :
    (formatEventsForTwitter rt events).length ≤ 280 := by
  unfold formatEventsForTwitter
  split
  · simp
  · exact clampTweet_length_le _

/-- C2: with the first-fetch flag cleared and a non-empty previous snapshot,
`detectNewEvents current` is the sub-sequence of `current` (in its order) of the events
whose identity is the identity of no previous event; for previous `[A, B]` and current
`[A, C, D]` with pairwise distinct identities it is `[C, D]`. -/
theorem detectNewEvents_set_difference (st : TrackerState) (current : List Event)
    (hflag : st.isFirstFetch = false) (hprev : st.previousScheduleData ≠ []) :
    detectNewEvents st current
        = current.filter (fun e =>
            decide (∀ p ∈ st.previousScheduleData, createEventId e ≠ createEventId p))
      ∧ List.Sublist (detectNewEvents st current) current
      ∧ ∀ A B C D : Event, st.previousScheduleData = [A, B] → current = [A, C, D] →
          ([A, B, C, D].map createEventId).Nodup → detectNewEvents st current = [C, D] := by
  have hlen : st.previousScheduleData.length ≠ 0 := by
    intro h
    exact hprev (List.length_eq_zero.mp h)
  have hmain : detectNewEvents st current
      = current.filter (fun e =>
          decide (∀ p ∈ st.previousScheduleData, createEventId e ≠ createEventId p)) := by
    unfold detectNewEvents
    simp only [hflag, hlen, decide_False, Bool.or_self, Bool.false_eq_true, if_false]
    apply List.filter_congr
    intro e _
    by_cases h : ∀ p ∈ st.previousScheduleData, createEventId e ≠ createEventId p
    · have hmem : createEventId e ∉ st.previousScheduleData.map createEventId := by
        intro hm
        obtain ⟨p, hp, heq⟩ := List.mem_map.mp hm
        exact h p hp heq.symm
      have hdec : decide (∀ p ∈ st.previousScheduleData,
          createEventId e ≠ createEventId p) = true := decide_eq_true h
      rw [hdec]
      simpa using hmem
    · have hmem : createEventId e ∈ st.previousScheduleData.map createEventId := by
        push_neg at h
        obtain ⟨p, hp, heq⟩ := h
        exact List.mem_map.mpr ⟨p, hp, heq.symm⟩
      simp only [h, decide_False]
      simpa using hmem
  refine ⟨hmain, ?_, ?_⟩
  · rw [hmain]
    exact List.filter_sublist _
  · intro A B C D hAB hcur hnd
    rw [hmain, hAB, hcur]
    simp only [List.map_cons, List.map_nil, List.nodup_cons, List.mem_cons,
      List.mem_singleton, not_or, List.not_mem_nil, not_false_eq_true, List.nodup_nil,
      and_true] at hnd
    obtain ⟨⟨hAB', hAC, hAD⟩, ⟨hBC, hBD⟩, hCD⟩ := hnd
    simp [List.filter_cons, hAC, hAD, hBC, hBD, Ne.symm hAC, Ne.symm hBC, Ne.symm hAD,
      Ne.symm hBD]

/-- The instance of C2 at previous `[A, B]`, current `[A, C, D]` for four sample records. -/
theorem detectNewEvents_set_difference_witness :
    detectNewEvents
        (trackingState [sampleEvent "2025-01-15" Field.undefined "A" "X",
          sampleEvent "2025-01-15" Field.undefined "B" "X"])
        [sampleEvent "2025-01-15" Field.undefined "A" "X",
          sampleEvent "2025-01-16" Field.undefined "C" "X",
          sampleEvent "2025-01-17" Field.undefined "D" "X"]
      = [sampleEvent "2025-01-16" Field.undefined "C" "X",
          sampleEvent "2025-01-17" Field.undefined "D" "X"] :=
  (detectNewEvents_set_difference _ _ rfl (by decide)).2.2 _ _ _ _ rfl rfl (by decide)

/-- C3: `detectNewEvents` returns the empty list whenever the first-fetch flag is still
set or the previous snapshot is empty, whatever the current list holds. -/
theorem detectNewEvents_empty (st : TrackerState) (current : List Event)
    (h : st.isFirstFetch = true ∨ st.previousScheduleData = []) :
    detectNewEvents st current = [] := by
  unfold detectNewEvents
  rcases h with h | h
  · simp [h]
  · simp [h]

/-- The instance of C3 at the initial state and a one-record current list. -/
theorem detectNewEvents_empty_witness :
    detectNewEvents TrackerState.initial
      [sampleEvent "2025-01-15" Field.undefined "A" "X"] = [] :=
  detectNewEvents_empty _ _ (Or.inl rfl)

/-- C4, as stated, fails: a record without a time and one whose time is the text
`no-time` differ in `time` and get the same identity, and so do two records that
split `Lunch_Rose_Garden` differently between `details` and `location`. -/
theorem createEventId_collision :
    ((sampleEvent "2025-01-15" Field.undefined "Remarks" "Oval Office").time
        ≠ (sampleEvent "2025-01-15" (Field.str (utf16 "no-time")) "Remarks" "Oval Office").time
      ∧ createEventId (sampleEvent "2025-01-15" Field.undefined "Remarks" "Oval Office")
        = createEventId
            (sampleEvent "2025-01-15" (Field.str (utf16 "no-time")) "Remarks" "Oval Office"))
    ∧ ((sampleEvent "2025-01-15" Field.undefined "Lunch_Rose" "Garden").details
        ≠ (sampleEvent "2025-01-15" Field.undefined "Lunch" "Rose_Garden").details
      ∧ createEventId (sampleEvent "2025-01-15" Field.undefined "Lunch_Rose" "Garden")
        = createEventId (sampleEvent "2025-01-15" Field.undefined "Lunch" "Rose_Garden")) := by
  decide

/-- C4, amended: two events that differ in exactly one of the five fields, the other
four being equal, have different identities, where a differing `time` counts only
when the two times are keyed differently (an absent, `null` or empty time is keyed
as `no-time`). -/
theorem createEventId_ne_of_one_field (E1 E2 : Event)
    (h : (E1.date ≠ E2.date ∧ E1.time = E2.time ∧ E1.details = E2.details
          ∧ E1.location = E2.location ∧ E1.type = E2.type)
      ∨ (E1.date = E2.date
          ∧ E1.time.orElse (utf16 "no-time") ≠ E2.time.orElse (utf16 "no-time")
          ∧ E1.details = E2.details ∧ E1.location = E2.location ∧ E1.type = E2.type)
      ∨ (E1.date = E2.date ∧ E1.time = E2.time ∧ E1.details ≠ E2.details
          ∧ E1.location = E2.location ∧ E1.type = E2.type)
      ∨ (E1.date = E2.date ∧ E1.time = E2.time ∧ E1.details = E2.details
          ∧ E1.location ≠ E2.location ∧ E1.type = E2.type)
      ∨ (E1.date = E2.date ∧ E1.time = E2.time ∧ E1.details = E2.details
          ∧ E1.location = E2.location ∧ E1.type ≠ E2.type)) :
    createEventId E1 ≠ createEventId E2 := by
  unfold createEventId
  simp only [List.append_assoc]
  rcases h with ⟨hd, ht, hde, hl, hty⟩ | ⟨hd, ht, hde, hl, hty⟩ | ⟨hd, ht, hde, hl, hty⟩
    | ⟨hd, ht, hde, hl, hty⟩ | ⟨hd, ht, hde, hl, hty⟩
  · rw [ht, hde, hl, hty]
    intro heq
    exact hd ((List.append_left_inj _).mp heq)
  · rw [hd, hde, hl, hty]
    intro heq
    have h1 := (List.append_right_inj _).mp ((List.append_right_inj _).mp heq)
    exact ht ((List.append_left_inj _).mp h1)
  · rw [hd, ht, hl, hty]
    intro heq
    have h1 := (List.append_right_inj _).mp ((List.append_right_inj _).mp
      ((List.append_right_inj _).mp ((List.append_right_inj _).mp heq)))
    exact hde ((List.append_left_inj _).mp h1)
  · rw [hd, ht, hde, hty]
    intro heq
    have h1 := (List.append_right_inj _).mp ((List.append_right_inj _).mp
      ((List.append_right_inj _).mp ((List.append_right_inj _).mp
      ((List.append_right_inj _).mp ((List.append_right_inj _).mp heq)))))
    exact hl ((List.append_left_inj _).mp h1)
  · rw [hd, ht, hde, hl]
    intro heq
    have h1 := (List.append_right_inj _).mp ((List.append_right_inj _).mp
      ((List.append_right_inj _).mp ((List.append_right_inj _).mp
      ((List.append_right_inj _).mp ((List.append_right_inj _).mp
      ((List.append_right_inj _).mp ((List.append_right_inj _).mp heq)))))))
    exact hty h1

/-- The instance of amended C4 at two records that differ in `details` only. -/
theorem createEventId_ne_of_one_field_witness :
    createEventId (sampleEvent "2025-01-15" Field.undefined "Remarks" "Oval Office")
      ≠ createEventId (sampleEvent "2025-01-15" Field.undefined "Lunch" "Oval Office") :=
  createEventId_ne_of_one_field _ _
    (Or.inr (Or.inr (Or.inl ⟨rfl, rfl, by decide, rfl, rfl⟩)))

/-- C5: when a cycle succeeds on a feed `F` (records dated `YYYY-MM-DD`, as the feed
supplies them) and the next cycle succeeds on the same `F` with a cutoff date equal
to or later than the first one's, the second cycle's change set is empty and the
second cycle passes nothing to `sendTweet`. -/
theorem second_cycle_on_unchanged_feed (rt : Runtime) (c1 c2 : Clock) (F : List Event)
    (st : TrackerState) (_hF : ∀ e ∈ F, isISODate e.date = true)
    (hcut : jsGe c2.cutoffDate c1.cutoffDate = true) :
    detectNewEvents (fetchCalendarData rt c1 (some F) st).1
        (filterToLatest14Days c2.cutoffDate F) = []
      ∧ (fetchCalendarData rt c2 (some F) (fetchCalendarData rt c1 (some F) st).1).2 = [] := by
  have hnone : detectNewEvents (fetchCalendarData rt c1 (some F) st).1
      (filterToLatest14Days c2.cutoffDate F) = [] := by
    apply detectNewEvents_of_subset
    intro e he
    rw [fetchCalendarData_previous]
    unfold filterToLatest14Days at he ⊢
    rw [List.mem_filter] at he ⊢
    exact ⟨he.1, jsGe_trans _ _ _ he.2 hcut⟩
  exact ⟨hnone, fetchCalendarData_sent_of_no_new rt c2 F _ (fetchCalendarData_flag rt c1 F st)
    hnone⟩

/-- The instance of C5 at two cycles one day apart, started from the initial state, on
a feed of three records one of which leaves the window in between. -/
theorem second_cycle_on_unchanged_feed_witness :
    jsGe (utf16 "2025-01-02") (utf16 "2025-01-01") = true
      ∧ detectNewEvents
          (fetchCalendarData sampleRuntime (Clock.mk (utf16 "2025-01-15") (utf16 "2025-01-01"))
            (some [sampleEvent "2025-01-01" Field.undefined "A" "X",
              sampleEvent "2025-01-15" Field.undefined "B" "X",
              sampleEvent "2025-01-20" Field.undefined "C" "X"]) TrackerState.initial).1
          (filterToLatest14Days (utf16 "2025-01-02")
            [sampleEvent "2025-01-01" Field.undefined "A" "X",
              sampleEvent "2025-01-15" Field.undefined "B" "X",
              sampleEvent "2025-01-20" Field.undefined "C" "X"]) = []
      ∧ (fetchCalendarData sampleRuntime (Clock.mk (utf16 "2025-01-16") (utf16 "2025-01-02"))
          (some [sampleEvent "2025-01-01" Field.undefined "A" "X",
            sampleEvent "2025-01-15" Field.undefined "B" "X",
            sampleEvent "2025-01-20" Field.undefined "C" "X"])
          (fetchCalendarData sampleRuntime (Clock.mk (utf16 "2025-01-15") (utf16 "2025-01-01"))
            (some [sampleEvent "2025-01-01" Field.undefined "A" "X",
              sampleEvent "2025-01-15" Field.undefined "B" "X",
              sampleEvent "2025-01-20" Field.undefined "C" "X"]) TrackerState.initial).1).2
        = [] :=
  ⟨by decide,
    second_cycle_on_unchanged_feed sampleRuntime
      (Clock.mk (utf16 "2025-01-15") (utf16 "2025-01-01"))
      (Clock.mk (utf16 "2025-01-16") (utf16 "2025-01-02")) _ TrackerState.initial (by decide)
      (by decide)⟩

/-- C6, as stated, fails: after the first fetch, a record dated before today (but
inside the window) that was not in the previous snapshot makes the change set
non-empty, yet the feed has nothing dated today or later, the digest is the
empty string, and the cycle passes nothing to `sendTweet`. -/
theorem new_event_without_publish :
    (trackingState [sampleEvent "2025-01-10" Field.undefined "A" "X"]).isFirstFetch = false
      ∧ detectNewEvents (trackingState [sampleEvent "2025-01-10" Field.undefined "A" "X"])
          (filterToLatest14Days (utf16 "2025-01-01")
            [sampleEvent "2025-01-10" Field.undefined "A" "X",
              sampleEvent "2025-01-12" Field.undefined "B" "X"])
        = [sampleEvent "2025-01-12" Field.undefined "B" "X"]
      ∧ (fetchCalendarData sampleRuntime (Clock.mk (utf16 "2025-01-15") (utf16 "2025-01-01"))
          (some [sampleEvent "2025-01-10" Field.undefined "A" "X",
            sampleEvent "2025-01-12" Field.undefined "B" "X"])
          (trackingState [sampleEvent "2025-01-10" Field.undefined "A" "X"])).2 = [] := by
  decide

/-- C6, amended: in a successful cycle (on records dated `YYYY-MM-DD`) that is not the
first fetch and whose change set is non-empty, the cycle calls `sendTweet` exactly when the full feed holds an event
dated today or later, and then exactly once, with `formatScheduleForTwitter` of the
today and upcoming partitions of the full feed; when no event is dated today or
later the digest is empty and nothing is passed to `sendTweet`. -/
theorem fetchCalendarData_publishes_digest (rt : Runtime) (clock : Clock) (data : List Event)
    (st : TrackerState) (_hdata : ∀ e ∈ data, isISODate e.date = true)
    (hflag : st.isFirstFetch = false)
    (hnew : detectNewEvents st (filterToLatest14Days clock.cutoffDate data) ≠ []) :
    (data.filter (fun event => decide (event.date = clock.today))
          ++ data.filter (fun event => jsLt clock.today event.date) ≠ [] →
        (fetchCalendarData rt clock (some data) st).2
          = [formatScheduleForTwitter rt clock.today
              (data.filter (fun event => decide (event.date = clock.today)))
              (data.filter (fun event => jsLt clock.today event.date))])
      ∧ (data.filter (fun event => decide (event.date = clock.today))
          ++ data.filter (fun event => jsLt clock.today event.date) = [] →
        (fetchCalendarData rt clock (some data) st).2 = []) := by
  have hpos : (detectNewEvents st (filterToLatest14Days clock.cutoffDate data)).length > 0 :=
    List.length_pos.mpr hnew
  constructor
  · intro hne
    have htext := formatScheduleForTwitter_ne_nil rt clock.today _ _ hne
    simp only [fetchCalendarData, parseCalendarData, hflag, hpos, Bool.false_eq_true,
      if_false, if_true]
    rw [if_pos htext]
  · intro hnil
    obtain ⟨h1, h2⟩ := List.append_eq_nil.mp hnil
    simp only [fetchCalendarData, parseCalendarData, hflag, hpos, Bool.false_eq_true,
      if_false, if_true, h1, h2, formatScheduleForTwitter_nil]
    simp

/-- The instance of amended C6 at a feed that gains a record dated after today. -/
theorem fetchCalendarData_publishes_digest_witness :
    (fetchCalendarData sampleRuntime (Clock.mk (utf16 "2025-01-15") (utf16 "2025-01-01"))
        (some [sampleEvent "2025-01-10" Field.undefined "A" "X",
          sampleEvent "2025-01-20" Field.undefined "B" "X"])
        (trackingState [sampleEvent "2025-01-10" Field.undefined "A" "X"])).2
      = [formatScheduleForTwitter sampleRuntime (utf16 "2025-01-15")
          ([sampleEvent "2025-01-10" Field.undefined "A" "X",
            sampleEvent "2025-01-20" Field.undefined "B" "X"].filter
              (fun event => decide (event.date = utf16 "2025-01-15")))
          ([sampleEvent "2025-01-10" Field.undefined "A" "X",
            sampleEvent "2025-01-20" Field.undefined "B" "X"].filter
              (fun event => jsLt (utf16 "2025-01-15") event.date))] :=
  (fetchCalendarData_publishes_digest sampleRuntime
    (Clock.mk (utf16 "2025-01-15") (utf16 "2025-01-01"))
    [sampleEvent "2025-01-10" Field.undefined "A" "X",
      sampleEvent "2025-01-20" Field.undefined "B" "X"]
    (trackingState [sampleEvent "2025-01-10" Field.undefined "A" "X"]) (by decide) rfl
    (by decide)).1 (by decide)

/-- C7: for records dated `YYYY-MM-DD` and a consistent `localeCompare`: the sorted list
is a permutation of the input, ascending by `date` and, within a date, by
`time || ""` (both as `localeCompare` orders them, dates in code-unit order when
`localeCompare` agrees with it on dates), and stable; the date groups hold its first
8 events. With `n > 8` events exactly 8 are shown and the text ends, before the
hashtag step, with the line `+ k more events...` where `k` is `n - 8` in decimal
digits; with `1 ≤ n ≤ 8` all events are shown and no such line is added. -/
theorem formatScheduleForTwitter_first_eight (rt : Runtime) (today : JSString)
    (todayEvents upcomingEvents : List Event)
    (hiso : ∀ e ∈ todayEvents ++ upcomingEvents, isISODate e.date = true)
    (hcmp : ConsistentCompare rt.localeCompare) :
    (sortEvents rt (todayEvents ++ upcomingEvents)).Perm (todayEvents ++ upcomingEvents)
      ∧ (sortEvents rt (todayEvents ++ upcomingEvents)).Pairwise
          (fun a b => (rt.localeCompare a.date b.date < 0
            ∨ (rt.localeCompare a.date b.date = 0
              ∧ rt.localeCompare (a.time.orElse []) (b.time.orElse []) ≤ 0)))
      ∧ (∀ a b : Event, List.Sublist [a, b] (todayEvents ++ upcomingEvents) →
          (rt.localeCompare a.date b.date < 0
            ∨ (rt.localeCompare a.date b.date = 0
              ∧ rt.localeCompare (a.time.orElse []) (b.time.orElse []) ≤ 0)) →
          List.Sublist [a, b] (sortEvents rt (todayEvents ++ upcomingEvents)))
      ∧ (AgreesOnISODates rt.localeCompare →
          (sortEvents rt (todayEvents ++ upcomingEvents)).Pairwise
            (fun a b => jsLt b.date a.date = false))
      ∧ ((groupByDate ((sortEvents rt (todayEvents ++ upcomingEvents)).take 8)).flatMap
            Prod.snd).Perm ((sortEvents rt (todayEvents ++ upcomingEvents)).take 8)
      ∧ (8 < (todayEvents ++ upcomingEvents).length →
          ((groupByDate ((sortEvents rt (todayEvents ++ upcomingEvents)).take 8)).flatMap
              Prod.snd).length = 8
            ∧ formatScheduleForTwitter rt today todayEvents upcomingEvents
              = appendHashtags
                  ((join (utf16 "\n\n━━━━━━━━━━━━━━━━━━━━\n\n")
                    ((groupByDate ((sortEvents rt (todayEvents ++ upcomingEvents)).take 8)).map
                      (fun p =>
                        rt.toUpperCase
                            (if p.1 = today then utf16 "🗓️ Today, " ++ rt.monthDay p.1
                              else utf16 "🗓️ " ++ rt.dayName p.1 ++ utf16 ", " ++ rt.monthDay p.1)
                          ++ utf16 "\n\n" ++ join (utf16 "\n\n") (p.2.map (scheduleEventString rt)))))
                    ++ (utf16 "\n\n+ "
                      ++ (Nat.digits 10 ((todayEvents ++ upcomingEvents).length - 8)).reverse.map
                          (fun d => d + 48)
                      ++ utf16 " more events...")))
      ∧ (todayEvents ++ upcomingEvents ≠ [] → (todayEvents ++ upcomingEvents).length ≤ 8 →
          ((groupByDate ((sortEvents rt (todayEvents ++ upcomingEvents)).take 8)).flatMap
              Prod.snd).Perm (todayEvents ++ upcomingEvents)
            ∧ formatScheduleForTwitter rt today todayEvents upcomingEvents
              = appendHashtags
                  (join (utf16 "\n\n━━━━━━━━━━━━━━━━━━━━\n\n")
                    ((groupByDate ((sortEvents rt (todayEvents ++ upcomingEvents)).take 8)).map
                      (fun p =>
                        rt.toUpperCase
                            (if p.1 = today then utf16 "🗓️ Today, " ++ rt.monthDay p.1
                              else utf16 "🗓️ " ++ rt.dayName p.1 ++ utf16 ", " ++ rt.monthDay p.1)
                          ++ utf16 "\n\n" ++ join (utf16 "\n\n") (p.2.map (scheduleEventString rt)))))) := by
  have hperm := groupByDate_perm ((sortEvents rt (todayEvents ++ upcomingEvents)).take 8)
  have hlen := sortEvents_length rt (todayEvents ++ upcomingEvents)
  have hsorted := sortEvents_sorted rt hcmp (todayEvents ++ upcomingEvents)
  refine ⟨sortEvents_perm rt _, ?_, ?_, ?_, hperm, ?_, ?_⟩
  · exact hsorted.imp (fun h => (compareEvents_le_iff rt _ _).mp h)
  · intro a b hsub hab
    exact List.pair_sublist_insertionSort ((compareEvents_le_iff rt a b).mpr hab) hsub
  · intro hag
    exact sortEvents_dateSorted rt hag _ hiso
  · intro h8
    have hne : todayEvents ++ upcomingEvents ≠ [] := by
      intro h
      rw [h] at h8
      simp at h8
    constructor
    · rw [hperm.length_eq, List.length_take, hlen]
      omega
    · have htext := formatScheduleForTwitter_text rt today todayEvents upcomingEvents hne
      rw [if_pos h8] at htext
      exact htext
  · intro hne h8
    have hnot : ¬ 8 < (todayEvents ++ upcomingEvents).length := by omega
    constructor
    · have htake : ((sortEvents rt (todayEvents ++ upcomingEvents)).take 8)
          = sortEvents rt (todayEvents ++ upcomingEvents) :=
        List.take_of_length_le (by rw [hlen]; exact h8)
      rw [htake] at hperm ⊢
      exact hperm.trans (sortEvents_perm rt _)
    · have htext := formatScheduleForTwitter_text rt today todayEvents upcomingEvents hne
      rw [if_neg hnot, List.append_nil] at htext
      exact htext

/-- The instance of C7 at the ten sample records on 2025-01-15: 8 are shown, by day
and within a day by time (`E8`, without a time, first on its day), and the text
ends with `+ 2 more events...`. -/
theorem formatScheduleForTwitter_first_eight_witness :
    ((groupByDate ((sortEvents calendarRuntime (tenTimedEvents ++ [])).take 8)).flatMap
        Prod.snd).length = 8
      ∧ formatScheduleForTwitter calendarRuntime (utf16 "2025-01-15") tenTimedEvents []
        = utf16 "🗓️ TODAY, JANUARY 15, 2025\n\n9:30 AM:   E6\n📍 X 👥 Open\n\n2:00 PM:   E2\n📍 X 👥 Open\n\n━━━━━━━━━━━━━━━━━━━━\n\n🗓️ THURSDAY, JANUARY 16, 2025\n\n:   E8\n📍 X 👥 undefined\n\n11:30 AM:   E4\n📍 X 👥 Open\n\n━━━━━━━━━━━━━━━━━━━━\n\n🗓️ FRIDAY, JANUARY 17, 2025\n\n9:00 AM:   E3\n📍 X 👥 Open\n\n1:00 PM:   E10\n📍 X 👥 Open\n\n━━━━━━━━━━━━━━━━━━━━\n\n🗓️ SATURDAY, JANUARY 18, 2025\n\n12:00 PM:   E9\n📍 X 👥 Open\n\n4:00 PM:   E5\n📍 X 👥 Open\n\n+ 2 more events..." := by
  have h := (formatScheduleForTwitter_first_eight calendarRuntime (utf16 "2025-01-15")
    tenTimedEvents [] (by decide) codeUnitCompare_consistent).2.2.2.2.2.1 (by decide)
  have hk : (tenTimedEvents ++ []).length - 8 = 2 := by decide
  have hdigits : (Nat.digits 10 2).reverse.map (fun d => d + 48) = [50] := by simp
  rw [hk, hdigits] at h
  exact ⟨h.1, h.2.trans (by decide)⟩

/-- C8: for records dated `YYYY-MM-DD`, in whatever order they are given, and a
`localeCompare` that orders such dates as the code units do: the groups of the shown
(first 8 sorted) events have strictly ascending keys, so one group per date; the
keys are exactly the dates of the shown events; the events of a group are exactly
the shown events of its date; and the text is, group after group in that order and
joined by the rule, the upper-cased header of the group's date (`🗓️ Today, ` or
`🗓️ ` weekday `, `, then month, day and year), a blank line, and the lines of the
group's events. -/
theorem formatScheduleForTwitter_one_header_per_date (rt : Runtime) (today : JSString)
    (todayEvents upcomingEvents : List Event)
    (hiso : ∀ e ∈ todayEvents ++ upcomingEvents, isISODate e.date = true)
    (hagree : AgreesOnISODates rt.localeCompare) :
    ((groupByDate ((sortEvents rt (todayEvents ++ upcomingEvents)).take 8)).map
        Prod.fst).Pairwise (fun a b => jsLt a b = true)
      ∧ (∀ d : JSString,
          d ∈ (groupByDate ((sortEvents rt (todayEvents ++ upcomingEvents)).take 8)).map
              Prod.fst
            ↔ ∃ e ∈ ((sortEvents rt (todayEvents ++ upcomingEvents)).take 8), e.date = d)
      ∧ (∀ p ∈ (groupByDate ((sortEvents rt (todayEvents ++ upcomingEvents)).take 8)),
          p.2 = ((sortEvents rt (todayEvents ++ upcomingEvents)).take 8).filter
            (fun e => decide (e.date = p.1)))
      ∧ (todayEvents ++ upcomingEvents ≠ [] →
          formatScheduleForTwitter rt today todayEvents upcomingEvents
            = appendHashtags
                ((join (utf16 "\n\n━━━━━━━━━━━━━━━━━━━━\n\n")
                  ((groupByDate ((sortEvents rt (todayEvents ++ upcomingEvents)).take 8)).map
                    (fun p =>
                      rt.toUpperCase
                          (if p.1 = today then utf16 "🗓️ Today, " ++ rt.monthDay p.1
                            else utf16 "🗓️ " ++ rt.dayName p.1 ++ utf16 ", " ++ rt.monthDay p.1)
                        ++ utf16 "\n\n" ++ join (utf16 "\n\n") (p.2.map (scheduleEventString rt)))))
                  ++ (if 8 < (todayEvents ++ upcomingEvents).length then
                        (utf16 "\n\n+ "
                          ++ (Nat.digits 10 ((todayEvents ++ upcomingEvents).length - 8)).reverse.map
                          (fun d => d + 48)
                          ++ utf16 " more events...")
                      else []))) := by
  have hsorted := sortEvents_dateSorted rt hagree _ hiso
  have hshown := List.Pairwise.sublist (List.take_sublist 8 _) hsorted
  exact ⟨groupByDate_keys_ascending _ hshown, groupByDate_keys _, groupByDate_entries _,
    formatScheduleForTwitter_text rt today todayEvents upcomingEvents⟩

/-- The instance of C8 on 2025-01-15 at three records where the two of 2025-01-16 are
apart: the keys ascend, and the text has one `TODAY` section with `B` and one
`THURSDAY` section with `A` and `C`. -/
theorem formatScheduleForTwitter_one_header_per_date_witness :
    ((groupByDate ((sortEvents calendarRuntime
        ([sampleEvent "2025-01-16" Field.undefined "A" "X",
            sampleEvent "2025-01-15" Field.undefined "B" "X"]
          ++ [sampleEvent "2025-01-16" Field.undefined "C" "X"])).take 8)).map
        Prod.fst).Pairwise (fun a b => jsLt a b = true)
      ∧ formatScheduleForTwitter calendarRuntime (utf16 "2025-01-15")
          [sampleEvent "2025-01-16" Field.undefined "A" "X",
            sampleEvent "2025-01-15" Field.undefined "B" "X"]
          [sampleEvent "2025-01-16" Field.undefined "C" "X"]
        = utf16 "🗓️ TODAY, JANUARY 15, 2025\n\n:   B\n📍 X 👥 undefined\n\n━━━━━━━━━━━━━━━━━━━━\n\n🗓️ THURSDAY, JANUARY 16, 2025\n\n:   A\n📍 X 👥 undefined\n\n:   C\n📍 X 👥 undefined\n\n#WhiteHouse #Trump #Schedule" :=
  ⟨(formatScheduleForTwitter_one_header_per_date calendarRuntime (utf16 "2025-01-15")
      [sampleEvent "2025-01-16" Field.undefined "A" "X",
        sampleEvent "2025-01-15" Field.undefined "B" "X"]
      [sampleEvent "2025-01-16" Field.undefined "C" "X"] (by decide) codeUnitCompare_agrees).1,
    ((formatScheduleForTwitter_one_header_per_date calendarRuntime (utf16 "2025-01-15")
      [sampleEvent "2025-01-16" Field.undefined "A" "X",
        sampleEvent "2025-01-15" Field.undefined "B" "X"]
      [sampleEvent "2025-01-16" Field.undefined "C" "X"] (by decide)
      codeUnitCompare_agrees).2.2.2 (by decide)).trans (by decide)⟩

/-- C9: for a list of exactly one event the alert starts with
`🚨 NEW WHITE HOUSE EVENT:`; for a list of `n ≥ 2` events (a JavaScript array, so
`n < 2^32`) it starts with `🚨 `, the decimal digits of `n`, and
` NEW WHITE HOUSE EVENTS:`; and for a single event with location `The White House`
and no `time_formatted` it contains the marker `🏛️ White House`, the runtime's
short date being at most 222 code units long (`Wed, Jan 15` has 11). -/
theorem alert_header_and_location_marker (rt : Runtime) :
    (∀ e : Event, utf16 "🚨 NEW WHITE HOUSE EVENT:" <+: formatEventsForTwitter rt [e])
      ∧ (∀ events : List Event, 2 ≤ events.length → events.length < 2 ^ 32 →
          utf16 "🚨 " ++ (Nat.digits 10 events.length).reverse.map (fun d => d + 48)
              ++ utf16 " NEW WHITE HOUSE EVENTS:"
            <+: formatEventsForTwitter rt events)
      ∧ (∀ e : Event, e.location = utf16 "The White House" → e.time_formatted.truthy = false →
          (rt.shortDate e.date).length ≤ 222 →
          utf16 "🏛️ White House" <:+: formatEventsForTwitter rt [e]) := by
  refine ⟨?_, ?_, ?_⟩
  · intro e
    have hlen : (alertHeader [e].length).length ≤ 277 := by
      show (alertHeader 1).length ≤ 277
      decide
    have h := alertHeader_prefix rt [e] (by simp) hlen
    simpa [alertHeader] using h
  · intro events h2 hmax
    have hne : events.length ≠ 1 := by omega
    have hhead : alertHeader events.length
        = utf16 "🚨 " ++ numberToString events.length ++ utf16 " NEW WHITE HOUSE EVENTS:" := by
      unfold alertHeader
      rw [if_neg hne]
    have hdig := numberToString_length events.length hmax
    have h3 : (utf16 "🚨 ").length = 3 := by decide
    have h24 : (utf16 " NEW WHITE HOUSE EVENTS:").length = 24 := by decide
    have h := alertHeader_prefix rt events (by omega)
      (by rw [hhead, List.length_append, List.length_append, h3, h24]; omega)
    rw [hhead, numberToString_eq_digits _ (by omega)] at h
    exact h
  · intro e hloc htime hdate
    have htba : e.time_formatted.orElse (utf16 "Time TBA") = utf16 "Time TBA" := by
      cases hf : e.time_formatted with
      | undefined => rfl
      | null => rfl
      | str s =>
        cases s with
        | nil => rfl
        | cons c cs => rw [hf] at htime; simp [Field.truthy] at htime
    have hpre : (alertHeader 1 ++ utf16 "\n\n" ++ utf16 "📅 " ++ rt.shortDate e.date ++ utf16 " "
        ++ utf16 "Time TBA" ++ utf16 "\n") ++ utf16 "🏛️ White House"
        <+: formatEventsForTwitter rt [e] := by
      unfold formatEventsForTwitter
      rw [if_neg (by simp)]
      apply prefix_clampTweet
      · apply prefix_appendHashtags
        simp only [List.length_singleton, List.enum_singleton, List.map_cons, List.map_nil,
          join, alertEventString, htba, hloc, if_true, gt_iff_lt, lt_self_iff_false, if_false,
          List.nil_append, List.append_assoc]
        repeat first
          | exact List.prefix_rfl
          | exact List.prefix_append _ _
          | rw [List.prefix_append_right_inj]
      · have h25 : (alertHeader 1).length = 25 := by decide
        have h2 : (utf16 "\n\n").length = 2 := by decide
        have h3 : (utf16 "📅 ").length = 3 := by decide
        have h1 : (utf16 " ").length = 1 := by decide
        have h8 : (utf16 "Time TBA").length = 8 := by decide
        have h1' : (utf16 "\n").length = 1 := by decide
        have h15 : (utf16 "🏛️ White House").length = 15 := by decide
        simp only [List.length_append, h25, h2, h3, h1, h8, h1', h15]
        omega
    obtain ⟨r, hr⟩ := hpre
    exact ⟨_, r, hr⟩

/-- The instance of C9 at two records, whose alert starts with
`🚨 2 NEW WHITE HOUSE EVENTS:`, and at the single record `The President will host...`
of 2025-01-15 at `The White House`, whose alert contains `🏛️ White House`; with the
two alerts in full and the code units of the start of the plural header. -/
theorem alert_header_and_location_marker_witness :
    (utf16 "🚨 2 NEW WHITE HOUSE EVENTS:"
        <+: formatEventsForTwitter calendarRuntime
          [sampleEvent "2025-01-15" Field.undefined "A" "X",
            sampleEvent "2025-01-16" Field.undefined "B" "X"])
      ∧ utf16 "🏛️ White House" <:+: formatEventsForTwitter calendarRuntime
          [sampleEvent "2025-01-15" Field.undefined "The President will host..."
            "The White House"]
      ∧ formatEventsForTwitter calendarRuntime
          [sampleEvent "2025-01-15" Field.undefined "A" "X",
            sampleEvent "2025-01-16" Field.undefined "B" "X"]
        = utf16 "🚨 2 NEW WHITE HOUSE EVENTS:\n\n1. 📅 Wed, Jan 15 Time TBA\n📍 X\nA\n\n2. 📅 Thu, Jan 16 Time TBA\n📍 X\nB\n\n#WhiteHouse #Trump #Schedule"
      ∧ formatEventsForTwitter calendarRuntime
          [sampleEvent "2025-01-15" Field.undefined "The President will host..."
            "The White House"]
        = utf16 "🚨 NEW WHITE HOUSE EVENT:\n\n📅 Wed, Jan 15 Time TBA\n🏛️ White House\nThe President will host...\n\n#WhiteHouse #Trump #Schedule"
      ∧ utf16 "🚨 2 NEW" = [55357, 57000, 32, 50, 32, 78, 69, 87] := by
  have hplural := (alert_header_and_location_marker calendarRuntime).2.1
    [sampleEvent "2025-01-15" Field.undefined "A" "X",
      sampleEvent "2025-01-16" Field.undefined "B" "X"] (by decide) (by decide)
  have hdigits : (Nat.digits 10
      [sampleEvent "2025-01-15" Field.undefined "A" "X",
        sampleEvent "2025-01-16" Field.undefined "B" "X"].length).reverse.map (fun d => d + 48)
      = [50] := by simp
  rw [hdigits] at hplural
  exact ⟨hplural,
    (alert_header_and_location_marker calendarRuntime).2.2
      (sampleEvent "2025-01-15" Field.undefined "The President will host..."
        "The White House") rfl rfl (by decide),
    by decide, by decide, by decide⟩

/-- C10: for a non-empty input (records dated `YYYY-MM-DD`) `formatScheduleForTwitter`
returns the assembled text followed by the hashtag suffix when the two together are at most 280 code units long
and the assembled text unchanged otherwise, with no clamp after that; so for some
input (one record with a 300-letter location, for every runtime and clock) the
returned string is longer than 280 code units. -/
theorem formatScheduleForTwitter_not_clamped (rt : Runtime) (today : JSString) :
    (∀ todayEvents upcomingEvents : List Event, todayEvents ++ upcomingEvents ≠ [] →
        (∀ e ∈ todayEvents ++ upcomingEvents, isISODate e.date = true) →
        formatScheduleForTwitter rt today todayEvents upcomingEvents
          = if (assembleDigest rt today (todayEvents ++ upcomingEvents)).length
                + hashtags.length ≤ 280
            then assembleDigest rt today (todayEvents ++ upcomingEvents) ++ hashtags
            else assembleDigest rt today (todayEvents ++ upcomingEvents))
      ∧ ∃ todayEvents upcomingEvents : List Event,
          (∀ e ∈ todayEvents ++ upcomingEvents, isISODate e.date = true)
            ∧ 280 < (formatScheduleForTwitter rt today todayEvents upcomingEvents).length := by
  constructor
  · intro todayEvents upcomingEvents hne _
    have hlen : (todayEvents ++ upcomingEvents).length ≠ 0 :=
      fun h0 => hne (List.length_eq_zero.mp h0)
    simp only [formatScheduleForTwitter, hlen, if_false, appendHashtags]
  · exact ⟨[longLocationEvent], [], by decide, formatScheduleForTwitter_longLocation rt today⟩

/-- The instance of C10 at one sample record: the digest is the assembled text with the
hashtag suffix, or without it, according to the 280 test. -/
theorem formatScheduleForTwitter_not_clamped_witness :
    formatScheduleForTwitter sampleRuntime (utf16 "2025-01-15")
        [sampleEvent "2025-01-15" Field.undefined "A" "X"] []
      = if (assembleDigest sampleRuntime (utf16 "2025-01-15")
              ([sampleEvent "2025-01-15" Field.undefined "A" "X"] ++ [])).length
            + hashtags.length ≤ 280
        then assembleDigest sampleRuntime (utf16 "2025-01-15")
              ([sampleEvent "2025-01-15" Field.undefined "A" "X"] ++ []) ++ hashtags
        else assembleDigest sampleRuntime (utf16 "2025-01-15")
              ([sampleEvent "2025-01-15" Field.undefined "A" "X"] ++ []) :=
  (formatScheduleForTwitter_not_clamped sampleRuntime (utf16 "2025-01-15")).1
    [sampleEvent "2025-01-15" Field.undefined "A" "X"] [] (by decide) (by decide)

/-- C11, as stated, fails: the details `Update from the press office: The President has
no public events scheduled` (74 code units) contain the sentinel, but the line is
built from their first 57 code units plus `...`, which do not, so the event keeps
its ordinary line with details, location and coverage. -/
theorem sentinel_beyond_cut_keeps_line :
    includes
        (sampleEvent "2025-01-15" Field.undefined
          "Update from the press office: The President has no public events scheduled"
          "The White House").details noEventsSentinel = true
      ∧ scheduleEventString sampleRuntime
          (sampleEvent "2025-01-15" Field.undefined
            "Update from the press office: The President has no public events scheduled"
            "The White House")
        = utf16 ":   Update from the press office: The President has no public...\n📍 The White House 👥 undefined"
      ∧ scheduleEventString sampleRuntime
          (sampleEvent "2025-01-15" Field.undefined
            "Update from the press office: The President has no public events scheduled"
            "The White House")
        ≠ utf16 "❌ The President has no public events scheduled" := by
  decide

/-- C11, amended: the line of an event is the fixed marker line exactly when the
details as the line shows them contain the sentinel, that is the details field when
it is at most 60 code units long and otherwise its first 57 code units followed by
`...`; so every event whose details field is at most 60 long and contains the
sentinel gets the marker line, and an event whose shown details lack the sentinel
gets its ordinary line. -/
theorem scheduleEventString_marker (rt : Runtime) (event : Event) :
    scheduleDetails event
        = (if 60 < event.details.length then event.details.take 57 ++ utf16 "..."
          else event.details)
      ∧ (includes (scheduleDetails event) noEventsSentinel = true →
          scheduleEventString rt event = utf16 "❌ The President has no public events scheduled")
      ∧ (event.details.length ≤ 60 → includes event.details noEventsSentinel = true →
          scheduleEventString rt event = utf16 "❌ The President has no public events scheduled")
      ∧ (includes (scheduleDetails event) noEventsSentinel = false →
          scheduleEventString rt event = scheduleFinalString rt event) := by
  refine ⟨scheduleDetails_eq event, ?_, ?_, ?_⟩
  · intro h
    rw [scheduleEventString_eq, if_pos h]
  · intro hlen h
    have hnot : ¬ 60 < event.details.length := by omega
    have hd : scheduleDetails event = event.details := by
      rw [scheduleDetails_eq, if_neg hnot]
    rw [scheduleEventString_eq, hd, if_pos h]
  · intro h
    rw [scheduleEventString_eq, h]
    rfl

/-- The instance of amended C11 at the record whose details are the sentinel followed
by ` today`. -/
theorem scheduleEventString_marker_witness :
    scheduleEventString sampleRuntime
        (sampleEvent "2025-01-15" Field.undefined
          "The President has no public events scheduled today" "The White House")
      = utf16 "❌ The President has no public events scheduled" :=
  (scheduleEventString_marker sampleRuntime
    (sampleEvent "2025-01-15" Field.undefined
      "The President has no public events scheduled today" "The White House")).2.2.1
    (by decide) (by decide)

/-- C12, as stated, fails: for a single event at a 75-unit location the budget is
`100 - (0 + 11 + 8 + 78 + 10) = -7`, the 7-unit details exceed it, and the text put
into the block is `...`, three code units, which is longer than the budget. -/
theorem alertDetails_exceeds_budget :
    alertMaxDetailsLength sampleRuntime 1 0
        (sampleEvent "2025-01-15" Field.undefined "Remarks"
          "The Ronald Reagan Building and International Trade Center, Washington, D.C.") = -7
      ∧ alertDetails sampleRuntime 1 0
          (sampleEvent "2025-01-15" Field.undefined "Remarks"
            "The Ronald Reagan Building and International Trade Center, Washington, D.C.")
        = utf16 "..."
      ∧ ¬ (((alertDetails sampleRuntime 1 0
          (sampleEvent "2025-01-15" Field.undefined "Remarks"
            "The Ronald Reagan Building and International Trade Center, Washington, D.C.")).length
              : Int)
          ≤ alertMaxDetailsLength sampleRuntime 1 0
              (sampleEvent "2025-01-15" Field.undefined "Remarks"
                "The Ronald Reagan Building and International Trade Center, Washington, D.C.")) := by
  decide

/-- C12, amended: with `max = 100 - (length of the event-number prefix + length of the
date text + length of the time text + length of the location text + 10)`, the details
text put into the event's block is the event's details unchanged when they are at
most `max` long, and otherwise the first `max - 3` code units of the details (none
when `max - 3` is not positive) followed by `...`; when `max` is at least 3 that text
is never longer than `max`, and is exactly `max` long when the details were cut. -/
theorem alertDetails_truncation (rt : Runtime) (total index : Nat) (event : Event) :
    alertEventString rt total index event
        = alertEventNum total index ++ utf16 "📅 " ++ rt.shortDate event.date ++ utf16 " "
          ++ event.time_formatted.orElse (utf16 "Time TBA") ++ utf16 "\n"
          ++ alertLocation event ++ utf16 "\n" ++ alertDetails rt total index event
      ∧ alertMaxDetailsLength rt total index event
        = 100 - (((alertEventNum total index).length : Int)
            + (rt.shortDate event.date).length
            + (event.time_formatted.orElse (utf16 "Time TBA")).length
            + (alertLocation event).length + 10)
      ∧ ((event.details.length : Int) ≤ alertMaxDetailsLength rt total index event →
          alertDetails rt total index event = event.details)
      ∧ (alertMaxDetailsLength rt total index event < (event.details.length : Int) →
          alertDetails rt total index event
            = event.details.take (alertMaxDetailsLength rt total index event - 3).toNat
              ++ utf16 "...")
      ∧ (3 ≤ alertMaxDetailsLength rt total index event →
          ((alertDetails rt total index event).length : Int)
              ≤ alertMaxDetailsLength rt total index event
            ∧ (alertMaxDetailsLength rt total index event < (event.details.length : Int) →
                ((alertDetails rt total index event).length : Int)
                  = alertMaxDetailsLength rt total index event)) := by
  have hkeep : (event.details.length : Int) ≤ alertMaxDetailsLength rt total index event →
      alertDetails rt total index event = event.details := by
    intro h
    unfold alertDetails
    rw [if_neg (by omega)]
  have hcut : alertMaxDetailsLength rt total index event < (event.details.length : Int) →
      alertDetails rt total index event
        = event.details.take (alertMaxDetailsLength rt total index event - 3).toNat
          ++ utf16 "..." := by
    intro h
    unfold alertDetails
    rw [if_pos (by omega), substring_zero]
  refine ⟨alertEventString_eq rt total index event, ?_, hkeep, hcut, ?_⟩
  · unfold alertMaxDetailsLength
    omega
  · intro h3
    have hlen : alertMaxDetailsLength rt total index event < (event.details.length : Int) →
        ((alertDetails rt total index event).length : Int)
          = alertMaxDetailsLength rt total index event := by
      intro h
      rw [hcut h, List.length_append, ellipsis_length, List.length_take]
      omega
    refine ⟨?_, hlen⟩
    rcases le_or_lt (event.details.length : Int) (alertMaxDetailsLength rt total index event)
      with h | h
    · rw [hkeep h]
      exact h
    · rw [hlen h]

/-- The instance of amended C12 at a single record at the White House with 100-unit
details: the budget is 56 and the text in the block is exactly 56 code units long. -/
theorem alertDetails_truncation_witness :
    ((alertDetails sampleRuntime 1 0
        (Event.mk (utf16 "2025-01-15") Field.undefined Field.undefined (List.replicate 100 65)
          (utf16 "The White House") (utf16 "event") Field.undefined Field.undefined
          Field.undefined)).length : Int)
      = alertMaxDetailsLength sampleRuntime 1 0
        (Event.mk (utf16 "2025-01-15") Field.undefined Field.undefined (List.replicate 100 65)
          (utf16 "The White House") (utf16 "event") Field.undefined Field.undefined
          Field.undefined) :=
  ((alertDetails_truncation sampleRuntime 1 0
    (Event.mk (utf16 "2025-01-15") Field.undefined Field.undefined (List.replicate 100 65)
      (utf16 "The White House") (utf16 "event") Field.undefined Field.undefined
      Field.undefined)).2.2.2.2 (by decide)).2 (by decide)

end WHSchedule
